import Mathlib

set_option maxHeartbeats 1000000
set_option maxRecDepth 8000

/-!
Shallow embedding of the MateBot context-memory subsystem
(`external_memory.py`, `failure_memory.py`, `attention_manager.py`)
and verification of the frozen claims about it.

Python strings are modelled as `List Char` (one element per Unicode
code point, matching Python's `len`/slicing semantics).  File systems,
the memory index and the prompt cache are modelled as association
lists threaded explicitly through the operations.  Impure inputs of
the source (hashes, wall-clock timestamps) are passed as explicit
parameters.
-/

namespace MateBot

/-- Python strings: one entry per Unicode code point. -/
abbrev Str := List Char

/-- The whitespace characters recognised by Python's `str.strip()` /
`str.split()` (the ASCII ones, which are the only ones arising here). -/
def isPySpace (c : Char) : Bool :=
  c == ' ' || c == '\n' || c == '\t' || c == '\r' || c == '\x0b' || c == '\x0c'

/-- Left part of Python `str.strip()`. -/
def stripLeft (s : Str) : Str := s.dropWhile isPySpace

/-- Right part of Python `str.strip()`. -/
def stripRight (s : Str) : Str := (s.reverse.dropWhile isPySpace).reverse

/-- Model of Python `s.strip()`. -/
def pyStrip (s : Str) : Str := stripRight (stripLeft s)

/-- Model of Python `s.lower()` (exact on the ASCII text used here;
identity on CJK characters, as in Python). -/
def pyLower (s : Str) : Str := s.map Char.toLower

/-- Split at the first occurrence of `pat`: returns the part strictly
before the occurrence and the part strictly after it.  `none` when
`pat` does not occur.  (Models the scanning done by Python's
`str.split(sep, n)` / `re.search` for literal patterns.) -/
def splitFirst (pat : Str) : Str → Option (Str × Str)
  | [] => none
  | c :: rest =>
    if pat <+: c :: rest then some ([], (c :: rest).drop pat.length)
    else (splitFirst pat rest).map fun p => (c :: p.1, p.2)

/-- `pat` occurs as a contiguous substring of `s`. -/
def containsSub (pat s : Str) : Bool := (splitFirst pat s).isSome

/-- Model of Python `s.split(sep, 2)` (at most two splits, scanning
left to right). -/
def pySplit2 (sep s : Str) : List Str :=
  match splitFirst sep s with
  | none => [s]
  | some (a, rest) =>
    match splitFirst sep rest with
    | none => [a, rest]
    | some (b, rest2) => [a, b, rest2]

/-- Model of Python `s.split(c)` for a one-character separator
(splits at every occurrence, keeping empty pieces). -/
def splitChar (sep : Char) : Str → List Str
  | [] => [[]]
  | c :: rest =>
    if c == sep then [] :: splitChar sep rest
    else
      match splitChar sep rest with
      | [] => [[c]]
      | h :: t => (c :: h) :: t

/-- Model of Python `sep.join(xs)`. -/
def pyJoin (sep : Str) : List Str → Str
  | [] => []
  | [x] => x
  | x :: y :: xs => x ++ sep ++ pyJoin sep (y :: xs)

/-- Split on every single whitespace character (keeping empty pieces);
helper for `pyWords`. -/
def splitWsChar : Str → List Str
  | [] => [[]]
  | c :: rest =>
    if isPySpace c then [] :: splitWsChar rest
    else
      match splitWsChar rest with
      | [] => [[c]]
      | h :: t => (c :: h) :: t

/-- Model of Python `s.split()` (no argument): maximal runs of
non-whitespace characters. -/
def pyWords (s : Str) : List Str := (splitWsChar s).filter (· ≠ [])

/-- Fuel-driven digit renderer (the fuel only bounds the recursion
depth; `natStr` always supplies enough). -/
def natStrAux : Nat → Nat → Str
  | 0, _ => []
  | fuel + 1, n =>
    if n < 10 then [Char.ofNat (48 + n)]
    else natStrAux fuel (n / 10) ++ [Char.ofNat (48 + n % 10)]

/-- Decimal rendering of a natural number (Python `str(n)` /
f-string interpolation of an `int`). -/
def natStr (n : Nat) : Str := natStrAux (n + 1) n

/-! ## `external_memory.py` -/

/-- `ExternalMemoryRef` (`external_memory.py`).  `metadata` is carried
in its JSON-serialised form, which is the only form in which the store
ever writes it. -/
structure ExternalMemoryRef where
  ref_id : Str
  content_type : Str
  file_path : Str
  summary : Str
  created_at : Str
  size_bytes : Nat
  metadataJson : Str
deriving DecidableEq

/-- One value of the reference index (`index["refs"][ref_id]`). -/
structure ExtIndexEntry where
  user_id : Str
  file_path : Str
  created_at : Str
  content_type : Str
deriving DecidableEq

/-- The file system (all readable files, path to content) together
with the store's reference index, threaded through the operations.
Newest entries are consed on the front; `List.lookup` therefore sees
the latest write, matching dictionary-overwrite semantics.  A file
that is missing or unreadable is simply absent from `files`. -/
structure ExtMemState where
  files : List (Str × Str)
  indexRefs : List (Str × ExtIndexEntry)
deriving DecidableEq

/-- `ExternalMemory._sanitize_path`: `re.sub(r'[^\w\-_.]', '_', name)[:50]`
(word characters approximated by `Char.isAlphanum`, exact on the ASCII
identifiers used here). -/
def sanitizePath (name : Str) : Str :=
  (name.map fun c => if c.isAlphanum || c == '-' || c == '_' || c == '.' then c else '_').take 50

/-- UTF-8 byte length (Python `len(content.encode('utf-8'))`). -/
def utf8Len (s : Str) : Nat := (s.map Char.utf8Size).sum

/-- `ExternalMemory._generate_summary`. -/
def generateSummary (content : Str) (maxLength : Nat) : Str :=
  let lines := splitChar '\n' (pyStrip content)
  let firstLine := lines.headD []
  if maxLength < firstLine.length then firstLine.take maxLength ++ ("...").data
  else if firstLine.length < 50 ∧ 1 < lines.length then
    let secondPart := pyJoin (" ").data ((lines.drop 1).take 2)
    let combined := firstLine ++ (" - ").data ++ secondPart
    if maxLength < combined.length then combined.take maxLength ++ ("...").data else combined
  else firstLine

/-- The body of the YAML frontmatter header `store_large_content`
writes, between the opening and closing `---`. -/
def emHeaderBody (refId userId contentType createdAt metaJson : Str) : Str :=
  ("\nref_id: ").data ++ refId ++ ("\nuser_id: ").data ++ userId
    ++ ("\ncontent_type: ").data ++ contentType ++ ("\ncreated_at: ").data ++ createdAt
    ++ ("\nmetadata: ").data ++ metaJson ++ ("\n").data

/-- The full frontmatter header written by `store_large_content`. -/
def emHeader (refId userId contentType createdAt metaJson : Str) : Str :=
  ("---").data ++ emHeaderBody refId userId contentType createdAt metaJson
    ++ ("---").data ++ ("\n\n").data

/-- `ExternalMemory.store_large_content`.  The impure inputs (the
sha256/time reference id, the file-name timestamp, `datetime.now()`)
are explicit parameters; `metadata` arrives as its JSON dump.  Raising
`ValueError` is modelled as `Except.error`; the check happens before
any write, so the error case leaves the state untouched. -/
def store_large_content (st : ExtMemState) (userId content contentType metaJson : Str)
    (refId fileTimestamp createdAt : Str) : Except Str (ExtMemState × ExternalMemoryRef) :=
  if pyStrip content = [] then .error ("Content cannot be empty").data
  else
    let content := pyStrip content
    let filePath := sanitizePath userId ++ ("/").data ++ sanitizePath contentType
      ++ ("/").data ++ fileTimestamp ++ ("_").data ++ refId.take 8 ++ (".md").data
    let header := emHeader refId userId contentType createdAt metaJson
    let ref : ExternalMemoryRef :=
      { ref_id := refId, content_type := contentType, file_path := filePath,
        summary := generateSummary content 150, created_at := createdAt,
        size_bytes := utf8Len content, metadataJson := metaJson }
    let st' : ExtMemState :=
      { files := (filePath, header ++ content) :: st.files,
        indexRefs := (refId, { user_id := userId, file_path := filePath,
                               created_at := createdAt, content_type := contentType })
                       :: st.indexRefs }
    .ok (st', ref)

/-- The frontmatter-stripping step shared by `retrieve_content` and
`retrieve_by_path`: if the file starts with `---`, split on the first
two occurrences of `---` and return everything after the second one,
stripped; otherwise return the content unchanged. -/
def stripFrontmatter (content : Str) : Str :=
  if ("---").data <+: content then
    match pySplit2 ("---").data content with
    | [_, _, rest] => pyStrip rest
    | _ => content
  else content

/-- `ExternalMemory.retrieve_content`: unknown reference id, or a
backing file that is missing/unreadable, yields `none`. -/
def retrieve_content (st : ExtMemState) (refId : Str) : Option Str :=
  match List.lookup refId st.indexRefs with
  | none => none
  | some entry =>
    match List.lookup entry.file_path st.files with
    | none => none
    | some content => some (stripFrontmatter content)

/-- `ExternalMemory.retrieve_by_path`: reads the path as given if it
exists, otherwise retries under the store's base directory; no index
membership or containment check of any kind. -/
def retrieve_by_path (st : ExtMemState) (baseDir path : Str) : Option Str :=
  match List.lookup path st.files with
  | some content => some (stripFrontmatter content)
  | none =>
    match List.lookup (baseDir ++ ("/").data ++ path) st.files with
    | some content => some (stripFrontmatter content)
    | none => none

/-- The lazy group of `re.search(r'\(see: (.+?)\)', s)` when a match
starts exactly here: the shortest non-empty run of characters followed
by `)`, containing no newline (`.` does not match `\n`; if a newline
precedes every following `)`, no start position at or before it can
match). -/
def seeGroup (s : Str) : Option Str :=
  match s with
  | [] => none
  | c :: rest =>
    match rest.findIdx? (· == ')') with
    | none => none
    | some k =>
      let g := c :: rest.take k
      if g.all (fun ch => ch != '\n') then some g else none

/-- Model of `re.search(r'\(see: (.+?)\)', content)`: scan start
positions left to right; at each, the literal marker `(see: ` must
match and the lazy group must succeed. -/
def findSeeMarker : Str → Option Str
  | [] => none
  | c :: rest =>
    if ("(see: ").data <+: c :: rest then
      match seeGroup ((c :: rest).drop 6) with
      | some g => some g
      | none => findSeeMarker rest
    else findSeeMarker rest

/-- `MemoryCompressor.expand_if_reference` (empty retrieved content is
falsy in Python and leaves the input unchanged). -/
def expand_if_reference (st : ExtMemState) (baseDir content : Str) : Str :=
  match findSeeMarker content with
  | some filePath =>
    match retrieve_by_path st baseDir filePath with
    | some full => if full = [] then content else full
    | none => content
  | none => content

/-! ## `failure_memory.py` -/

/-- `FailureRecord` (`failure_memory.py`).  The open `metadata` dict
is not modelled: no operation verified here reads it back. -/
structure FailureRecord where
  failure_id : Str
  user_id : Str
  action : Str
  error_message : Str
  error_type : Str
  context : Str
  lesson : Str
  timestamp : Str
  recurrence_count : Nat
  resolved : Bool
deriving DecidableEq

/-- One entry of `FailureMemory.ERROR_PATTERNS`: a literal substring
pattern, or `a.*b` (literal, any same-line filler, literal).  These
are the only two regex shapes in the table. -/
inductive ErrPat where
  | lit (s : Str)
  | seq (a b : Str)

/-- Whether a pattern matches anywhere in the (already lowercased)
message: `re.search(p, s, re.IGNORECASE)`.  For `a.*b` there must be a
start position where `a` matches, followed on the same line by `b`
(`.` does not match a newline). -/
def errPatMatches (p : ErrPat) (s : Str) : Bool :=
  match p with
  | .lit l => containsSub l s
  | .seq a b =>
    (List.range s.length).any fun i =>
      a.isPrefixOf (s.drop i)
        && containsSub b ((s.drop (i + a.length)).takeWhile (fun ch => ch != '\n'))

/-- `FailureMemory.ERROR_PATTERNS`, in dict insertion order, with the
patterns lowercased (they are matched case-insensitively against the
lowercased message). -/
def errorPatterns : List (Str × List ErrPat) :=
  [ (("syntax").data,
      [.lit ("syntaxerror").data, .lit ("syntax error").data, .lit ("unexpected token").data,
       .lit ("invalid syntax").data, .seq ("expected").data ("but found").data]),
    (("logic").data,
      [.lit ("logicerror").data, .lit ("assertion failed").data, .lit ("wrong result").data,
       .lit ("incorrect output").data, .lit ("unexpected behavior").data]),
    (("runtime").data,
      [.lit ("runtimeerror").data, .lit ("nullpointer").data,
       .seq ("undefined").data ("reference").data, .lit ("segmentation fault").data,
       .lit ("memory leak").data]),
    (("api_usage").data,
      [.lit ("apierror").data, .lit ("bad request").data, .lit ("invalid parameter").data,
       .lit ("method not allowed").data, .lit ("not supported").data]),
    (("config").data,
      [.lit ("configerror").data, .lit ("configuration").data, .lit ("missing config").data,
       .lit ("env variable").data, .lit ("setting not found").data]),
    (("permission").data,
      [.lit ("permissionerror").data, .lit ("access denied").data, .lit ("unauthorized").data,
       .lit ("forbidden").data, .lit ("not allowed").data]),
    (("network").data,
      [.lit ("networkerror").data, .lit ("connection refused").data, .lit ("timeout").data,
       .lit ("enotfound").data, .lit ("econnrefused").data]) ]

/-- `FailureMemory._detect_error_type`: first type whose pattern group
matches the lowercased message, else `unknown`. -/
def detectErrorType (errorMessage : Str) : Str :=
  let lower := pyLower errorMessage
  match errorPatterns.find? (fun tp => tp.2.any (fun p => errPatMatches p lower)) with
  | some tp => tp.1
  | none => ("unknown").data

/-- `FailureMemory._format_for_storage`. -/
def formatForStorage (r : FailureRecord) : Str :=
  ("失败记录:\naction: ").data ++ r.action
    ++ ("\nerror: ").data ++ r.error_message
    ++ ("\ntype: ").data ++ r.error_type
    ++ ("\ncontext: ").data ++ (if r.context = [] then ("N/A").data else r.context.take 200)
    ++ ("\nlesson: ").data ++ r.lesson
    ++ ("\nrecurrence: ").data ++ natStr r.recurrence_count ++ ("x\n").data

/-- The metadata dict attached to a `failure_lesson` memory row. -/
structure MemMeta where
  failure_id : Str
  error_type : Str
  action : Str
  recurrence_count : Nat
  resolved : Bool
deriving DecidableEq

/-- One row held by the external memory index for the message type
`failure_lesson`. -/
structure MemEntry where
  id : Nat
  user_id : Str
  content : Str
  meta : MemMeta
  timestamp : Str
deriving DecidableEq

/-- Modelled from the spec: the external "memory index" collaborator
(`memory.get_memory()` is not part of src/).  Spec §6 requires `add`,
`get_by_type`, `delete` and recency access (`get_recent`); rows are
returned most recent first.  Only rows of the single message type
`failure_lesson` used by `FailureMemory` are modelled, since every
operation below filters on that type. -/
structure MemState where
  entries : List MemEntry
  nextId : Nat
deriving DecidableEq

/-- The empty memory index. -/
def memEmpty : MemState := { entries := [], nextId := 0 }

/-- `memory.add(user_id, content, message_type, metadata)`. -/
def memAdd (st : MemState) (user content : Str) (meta : MemMeta) (ts : Str) : MemState :=
  { entries := { id := st.nextId, user_id := user, content := content,
                 meta := meta, timestamp := ts } :: st.entries,
    nextId := st.nextId + 1 }

/-- `memory.get_by_type(user_id, "failure_lesson", limit)`: the user's
rows, most recent first, at most `limit` of them. -/
def memGetByType (st : MemState) (user : Str) (limit : Nat) : List MemEntry :=
  (st.entries.filter (fun e => e.user_id == user)).take limit

/-- `memory.delete(user_id, record_id)`. -/
def memDelete (st : MemState) (user : Str) (id : Nat) : MemState :=
  { st with entries := st.entries.filter (fun e => !(e.user_id == user && e.id == id)) }

/-- Model of `re.search(r'<label>\s*(.+)', content)` for the literal
field labels of `_parse_memory_to_record`: first occurrence of the
label, then the greedy whitespace run (`\s` crosses newlines), then a
non-empty capture running to the end of that line (`.` stops at a
newline).  The one place this under-approximates the regex engine —
retrying a later label occurrence when the first is followed only by
whitespace up to the end of the input — cannot arise on the contents
built by `_format_for_storage`. -/
def searchAfterLabel (label content : Str) : Option Str :=
  match splitFirst label content with
  | none => none
  | some (_, rest) =>
    let r := rest.dropWhile isPySpace
    let line := r.takeWhile (fun ch => ch != '\n')
    if line = [] then none else some line

/-- Model of `re.search(r'type:\s*(\w+)', content)`. -/
def searchTypeWord (content : Str) : Option Str :=
  match splitFirst ("type:").data content with
  | none => none
  | some (_, rest) =>
    let r := rest.dropWhile isPySpace
    let w := r.takeWhile (fun ch => ch.isAlphanum || ch == '_')
    if w = [] then none else some w

/-- Decimal digits to `Nat` (Python `int(...)` on a `\d+` group). -/
def strToNat (s : Str) : Nat := s.foldl (fun a c => a * 10 + (c.toNat - 48)) 0

/-- Model of `re.search(r'recurrence:\s*(\d+)x', content)` followed by
`int(group(1))`. -/
def searchRecurrence (content : Str) : Option Nat :=
  match splitFirst ("recurrence:").data content with
  | none => none
  | some (_, rest) =>
    let r := rest.dropWhile isPySpace
    let ds := r.takeWhile Char.isDigit
    if ds = [] then none
    else if (r.drop ds.length).headD ' ' == 'x' then some (strToNat ds) else none

/-- `FailureMemory._parse_memory_to_record` (each missing group falls
back to its default, as in the source; the reconstruction never
raises). -/
def parseMemoryToRecord (m : MemEntry) : FailureRecord :=
  { failure_id := m.meta.failure_id
    user_id := m.user_id
    action := (searchAfterLabel ("action:").data m.content).getD []
    error_message := (searchAfterLabel ("error:").data m.content).getD []
    error_type := (searchTypeWord m.content).getD ("unknown").data
    context := (searchAfterLabel ("context:").data m.content).getD []
    lesson := (searchAfterLabel ("lesson:").data m.content).getD []
    timestamp := m.timestamp
    recurrence_count := (searchRecurrence m.content).getD 1
    resolved := m.meta.resolved }

/-- `FailureMemory.get_user_failures`. -/
def get_user_failures (st : MemState) (user : Str) (resolvedOnly : Bool) (limit : Nat) :
    List FailureRecord :=
  (((memGetByType st user (limit * 2)).filter
      (fun m => !resolvedOnly || m.meta.resolved)).map parseMemoryToRecord).take limit

/-- `FailureMemory._find_similar_failure`. -/
def findSimilarFailure (st : MemState) (user action errorMessage : Str) :
    Option FailureRecord :=
  let failures := get_user_failures st user false 50
  let actionNorm := pyStrip (pyLower action)
  let errorNorm := (pyStrip (pyLower errorMessage)).take 100
  failures.find? (fun f =>
    pyStrip (pyLower f.action) == actionNorm
      && (pyStrip (pyLower f.error_message)).take 100 == errorNorm)

/-- `FailureMemory._update_failure`: delete the old row carrying this
`failure_id` (searching the 100 most recent rows), then re-add the
updated record. -/
def updateFailure (st : MemState) (user : Str) (r : FailureRecord) : MemState :=
  let memories := memGetByType st user 100
  let st1 :=
    match memories.find? (fun m => m.meta.failure_id == r.failure_id) with
    | some m => memDelete st user m.id
    | none => st
  memAdd st1 user (formatForStorage r)
    { failure_id := r.failure_id, error_type := r.error_type, action := r.action,
      recurrence_count := r.recurrence_count, resolved := r.resolved } r.timestamp

/-- `FailureMemory.record_failure`.  The impure inputs (fresh
`failure_id`, `datetime.now()`) are explicit parameters.  On a similar
existing failure, bump its recurrence count and refresh its timestamp
in place; the new call's `context`/`lesson` arguments are not used on
that path (as in the source). -/
def record_failure (st : MemState) (user action errorMessage context lesson : Str)
    (newFid newTs : Str) : MemState × FailureRecord :=
  let errorType := detectErrorType errorMessage
  match findSimilarFailure st user action errorMessage with
  | some similar =>
    let updated := { similar with recurrence_count := similar.recurrence_count + 1,
                                  timestamp := newTs }
    (updateFailure st user updated, updated)
  | none =>
    let record : FailureRecord :=
      { failure_id := newFid, user_id := user, action := action,
        error_message := errorMessage, error_type := errorType,
        context := context, lesson := if lesson = [] then ("待总结").data else lesson,
        timestamp := newTs, recurrence_count := 1, resolved := false }
    (memAdd st user (formatForStorage record)
      { failure_id := newFid, error_type := errorType, action := action,
        recurrence_count := 1, resolved := false } newTs, record)

/-- Shared distinct words of two action strings:
`len(set(a.split()) & set(b.split()))`. -/
def sharedWordCount (a b : Str) : Nat :=
  ((pyWords a).dedup.filter (fun w => (pyWords b).contains w)).length

/-- The relevance score of one candidate in
`FailureMemory.get_relevant_failures` (the query is already
lowercased). -/
def relevanceScore (currentActionLower : Str) (f : FailureRecord) : Nat :=
  let actionLower := pyLower f.action
  let base :=
    if actionLower = currentActionLower then 100
    else if containsSub currentActionLower actionLower
         || containsSub actionLower currentActionLower then 50
    else 10 * sharedWordCount currentActionLower actionLower
  base + 5 * f.recurrence_count

/-- Stable insertion step of Python's `list.sort(key=..., reverse=True)`:
the inserted element goes after every strictly greater key and before
any tie, so that earlier list elements precede later ones on ties. -/
def insertDesc {α : Type} (key : α → Nat) (x : α) : List α → List α
  | [] => [x]
  | y :: ys => if key x < key y then y :: insertDesc key x ys else x :: y :: ys

/-- Stable descending sort by key (the observable behaviour of
Python's stable `sort(key=..., reverse=True)`). -/
def sortDesc {α : Type} (key : α → Nat) : List α → List α
  | [] => []
  | x :: xs => insertDesc key x (sortDesc key xs)

/-- The pure core of `FailureMemory.get_relevant_failures`: score each
candidate, sort stably by descending score, return the top `limit`. -/
def rankRelevantFailures (failures : List FailureRecord) (currentAction : Str)
    (limit : Nat) : List FailureRecord :=
  let cur := pyLower currentAction
  let scored := failures.map (fun f => (relevanceScore cur f, f))
  ((sortDesc Prod.fst scored).take limit).map Prod.snd

/-- `FailureMemory.get_relevant_failures`. -/
def get_relevant_failures (st : MemState) (user currentAction : Str) (limit : Nat) :
    List FailureRecord :=
  rankRelevantFailures (get_user_failures st user false 50) currentAction limit

/-- The header line of `format_for_prompt`. -/
def ffpHeader : Str := ("【⚠️ 相关失败经验 - 避免重复犯错】").data

/-- The lines of one formatted entry of `format_for_prompt`
(`i` is the 1-based position from `enumerate(failures, 1)`). -/
def ffpEntryLines (i : Nat) (f : FailureRecord) : List Str :=
  let base := [natStr i ++ (". 操作: ").data ++ f.action,
               ("   错误: ").data ++ f.error_message.take 100]
  let base := if f.lesson ≠ [] ∧ f.lesson ≠ ("待总结").data
              then base ++ [("   教训: ").data ++ f.lesson] else base
  if 1 < f.recurrence_count
  then base ++ [("   (已重复 ").data ++ natStr f.recurrence_count ++ (" 次)").data]
  else base

/-- The record loop of `format_for_prompt`: stop (break) as soon as
the running length plus the next entry would exceed the budget. -/
def ffpLoop (maxChars : Nat) : Nat → Nat → List Str → List FailureRecord → List Str
  | _, _, lines, [] => lines
  | i, curLen, lines, f :: rest =>
    let entryLines := ffpEntryLines i f
    let entryText := pyJoin ("\n").data entryLines ++ ("\n").data
    if maxChars < curLen + entryText.length then lines
    else ffpLoop maxChars (i + 1) (curLen + entryText.length + 1)
           (lines ++ entryLines ++ [[]]) rest

/-- `FailureMemory.format_for_prompt`. -/
def format_for_prompt (failures : List FailureRecord) (maxChars : Nat) : Str :=
  if failures = [] then []
  else pyJoin ("\n").data (ffpLoop maxChars 1 (ffpHeader.length + 1) [ffpHeader, []] failures)

/-! ## `attention_manager.py` -/

/-- `AttentionManager.STATIC_SYSTEM_PREFIX`, verbatim. -/
def STATIC_SYSTEM_PREFIX : Str :=
  ("【系统指令 - MateCode 编程助手】\n\n你是一个专业的软件开发助手，擅长：\n- 现代 C++ (C++17/20) 开发\n- TypeScript/React 前端开发\n- SQLite 数据库设计\n").data
    ++ ("- 系统架构设计\n\n当前项目上下文:\n- 项目类型: OpenHarmony MediaLibrary\n- 技术栈: Modern C++, SQLite, TypeScript\n\n").data
    ++ ("回复规则:\n1. 保持回答简洁、直接、技术准确\n2. 代码块使用正确的语法高亮\n3. 重要决策使用 -- memory 格式记录\n4. 遇到错误时分析原因并使用 -- lesson 格式记录教训\n\n").data
    ++ ("教训记录格式 (-- lesson):\n当遇到错误、失败或需要总结教训时，在回复末尾添加：\n\n-- lesson\n[一句话总结核心教训，包含：错误原因 + 正确做法]\n--\n").data
    ++ ("\n示例:\n-- lesson\n数据库连接池未设置最大连接数导致耗尽，应该配置 max_connections 和超时机制。\n--\n\n").data

/-- `AttentionManager.SECTION_SEPARATOR` (`"\n" + "=" * 50 + "\n"`). -/
def SECTION_SEPARATOR : Str := ("\n").data ++ List.replicate 50 '=' ++ ("\n").data

/-- The session map and the per-`(user, task)` todo documents of the
attention manager and its external store. -/
structure AttnState where
  sessionTaskIds : List (Str × Str)
  todoFiles : List ((Str × Str) × Str)
deriving DecidableEq

/-- The empty attention-manager state. -/
def attnEmpty : AttnState := { sessionTaskIds := [], todoFiles := [] }

/-- `ExternalMemory._default_todo_template` (timestamp is the impure
`datetime.now()` rendering, passed in). -/
def defaultTodoTemplate (nowStr : Str) : Str :=
  ("# 当前任务目标\n\n## 主要目标\n[在此描述当前会话的主要目标]\n\n## 已完成\n- [ ]\n\n## 待办事项\n- [ ]\n\n## 关键决策\n[记录重要的架构或设计决策]\n\n## 注意事项\n[记录需要特别注意的事项，如错误规避]\n\n---\n*Created: ").data
    ++ nowStr ++ ("*\n").data

/-- The todo template written by `AttentionManager.create_task`. -/
def taskTemplate (goal taskId nowStr : Str) : Str :=
  ("# 当前任务\n\n## 主要目标\n").data ++ goal
    ++ ("\n\n## 已完成\n- [ ]\n\n## 待办事项\n- [ ] 分析需求\n- [ ] 设计方案\n- [ ] 实现代码\n- [ ] 测试验证\n\n## 关键决策\n[待记录]\n\n## 注意事项\n[待记录]\n\n---\n任务ID: ").data
    ++ taskId ++ ("\n创建时间: ").data ++ nowStr ++ ("\n").data

/-- `AttentionManager.create_task` with no explicit task id: generate
`task_<int(time.time())>`, set it as the session's task, and write the
templated todo document (an assoc-cons models the file overwrite). -/
def create_task (st : AttnState) (chatId goal : Str) (tsNum nowStr : Str) :
    AttnState × Str :=
  let taskId := ("task_").data ++ tsNum
  ({ sessionTaskIds := (chatId, taskId) :: st.sessionTaskIds,
     todoFiles := ((chatId, taskId), taskTemplate goal taskId nowStr) :: st.todoFiles },
   taskId)

/-- `AttentionManager._get_task_state` via `ExternalMemory.get_todo_md`
(absent file falls back to the default template). -/
def getTaskState (st : AttnState) (chatId nowStr : Str) : Str :=
  let taskId := (List.lookup chatId st.sessionTaskIds).getD ("default").data
  (List.lookup (chatId, taskId) st.todoFiles).getD (defaultTodoTemplate nowStr)

/-- The prefixes whose lines `_format_task_recitation` keeps. -/
def recitationKeeps : List Str :=
  [("#").data, ("## 主要目标").data, ("## 待办").data, ("## 注意").data,
   ("- [ ]").data, ("⚠️").data]

/-- `AttentionManager._format_task_recitation`. -/
def formatTaskRecitation (taskState : Str) : Str :=
  let lines := splitChar '\n' taskState
  let keySections := lines.filter (fun l => recitationKeeps.any (fun p => p.isPrefixOf (pyStrip l)))
  let taskSummary :=
    if (pyJoin ("\n").data keySections).length < 100 then taskState.take 500
    else pyJoin ("\n").data (keySections.take 20)
  ("【⚠️ 当前任务目标 - 请始终保持关注】\n").data ++ taskSummary
    ++ ("\n\n【提醒】完成上述目标后，请更新任务状态。").data

/-- The line loop of `AttentionManager._extract_meta_prompt`. -/
def extractMetaLines : Bool → List Str → List Str
  | _, [] => []
  | inIt, l :: rest =>
    if pyStrip l = ("## 初始提示词").data then extractMetaLines true rest
    else if inIt then
      if ("## ").data.isPrefixOf l then []
      else l :: extractMetaLines inIt rest
    else extractMetaLines inIt rest

/-- `AttentionManager._extract_meta_prompt`. -/
def extractMetaPrompt (claudeMd : Str) : Str :=
  if claudeMd = [] then []
  else pyStrip (pyJoin ("\n").data (extractMetaLines false (splitChar '\n' claudeMd)))

/-- `AttentionManager._format_working_memory`. -/
def formatWorkingMemory (wm : List Str) : Str :=
  if wm = [] then []
  else pyJoin ("\n").data ((("【近期对话上下文】").data) ::
    ((wm.drop (wm.length - 5)).enum.map (fun p => natStr (p.1 + 1) ++ (". ").data ++ p.2)))

/-- `AttentionManager._format_retrieved_memories` (a memory snippet is
consumed only through its `content` field, so snippets are modelled as
their content strings). -/
def formatRetrievedMemories (memories : List Str) : Str :=
  if memories = [] then []
  else pyJoin ("\n").data ((("【相关历史记忆】").data) ::
    (memories.take 5).map (fun content =>
      let c := match splitFirst ("(see:").data content with
               | some p => pyStrip p.1
               | none => content
      ("• ").data ++ c.take 150))

/-- `AttentionManager._get_failure_lessons`. -/
def getFailureLessons (mem : MemState) (chatId userInput : Str) : Str :=
  let failures := get_relevant_failures mem chatId userInput 3
  if failures = [] then [] else format_for_prompt failures 800

/-- `AttentionManager.build_optimized_prompt`: the fixed section order
(static prefix, optional meta prompt, working memory, retrieved
memories, failure lessons, user input, task recitation), empty
sections omitted, joined by `SECTION_SEPARATOR`. -/
def build_optimized_prompt (attn : AttnState) (mem : MemState)
    (userInput chatId : Str) (memories workingMemory : Option (List Str))
    (includeMetaPrompt : Bool) (claudeMd : Option Str) (nowStr : Str) : Str :=
  let parts : List Str := [pyStrip STATIC_SYSTEM_PREFIX]
  let parts := parts ++
    (match includeMetaPrompt, claudeMd with
     | true, some md =>
       let mp := extractMetaPrompt md
       if mp ≠ [] then [("【项目特定指令】\n").data ++ mp] else []
     | _, _ => [])
  let parts := parts ++
    (match workingMemory with
     | some wm => let t := formatWorkingMemory wm; if t ≠ [] then [t] else []
     | none => [])
  let parts := parts ++
    (match memories with
     | some ms => let t := formatRetrievedMemories ms; if t ≠ [] then [t] else []
     | none => [])
  let parts := parts ++
    (let ft := getFailureLessons mem chatId userInput; if ft ≠ [] then [ft] else [])
  let parts := parts ++ [("【用户输入】\n").data ++ userInput]
  let parts := parts ++
    (let ts := getTaskState attn chatId nowStr
     if ts ≠ [] then [formatTaskRecitation ts] else [])
  pyJoin SECTION_SEPARATOR parts

/-! ## The prompt cache (`kv_cache` module, modelled from the spec) -/

/-- One cache entry (spec §3 `CacheEntry`): valid only while
`now < expires_at`. -/
structure KVEntry where
  text : Str
  expiresAt : Nat
deriving DecidableEq

/-- Modelled from the spec: the `kv_cache` module (PromptCache, spec
§4.3) is not part of src/.  Entries are keyed strings; a cons-front
assoc list models `put` overwriting the previous entry under the same
key. -/
structure KVCacheState where
  entries : List (Str × KVEntry)
deriving DecidableEq

/-- The empty prompt cache. -/
def kvEmpty : KVCacheState := { entries := [] }

/-- Modelled from the spec: `key(static_prefix, user_id)` is a
deterministic, collision-resistant function of exactly those two
inputs (spec §4.3); modelled as an injective length-tagged
concatenation. -/
def generateCacheKey (staticPre userId : Str) : Str :=
  natStr staticPre.length ++ (":").data ++ staticPre ++ userId

/-- Modelled from the spec: `get(cache_key)` misses both when no entry
exists and when `now ≥ expires_at` (lazy expiry, spec §4.3). -/
def getCachedPrompt (st : KVCacheState) (key : Str) (now : Nat) : Option Str :=
  match List.lookup key st.entries with
  | none => none
  | some e => if now < e.expiresAt then some e.text else none

/-- Modelled from the spec: `put(cache_key, text, ..., ttl)` stores
`text` until `now + ttl`, overwriting any prior entry. -/
def storePrompt (st : KVCacheState) (key text : Str) (ttl now : Nat) : KVCacheState :=
  { entries := (key, { text := text, expiresAt := now + ttl }) :: st.entries }

/-- A value of the `cache_info` dict returned by
`build_optimized_prompt_with_cache` (booleans and strings occur). -/
inductive CVal where
  | b (v : Bool)
  | s (v : Str)
deriving DecidableEq

/-- Python `dict` update: the new binding shadows the old one under
`List.lookup`. -/
def dictSet (d : List (Str × CVal)) (k : Str) (v : CVal) : List (Str × CVal) :=
  (k, v) :: d

/-- `AttentionManager.build_optimized_prompt_with_cache`: key from the
static prefix and chat id, return the cached text on a fresh hit
(leaving the cache untouched), else build fresh, store under the key
with the given TTL, and report the miss.  The hit test is the source's
`if cached_prompt:` - Python truthiness - so a cache miss (`None`) and
a cached empty string both take the rebuild path. -/
def build_optimized_prompt_with_cache (attn : AttnState) (mem : MemState)
    (cache : KVCacheState) (userInput chatId : Str)
    (memories workingMemory : Option (List Str)) (includeMetaPrompt : Bool)
    (claudeMd : Option Str) (nowStr : Str) (ttlSeconds now : Nat) :
    Str × List (Str × CVal) × KVCacheState :=
  let cacheKey := generateCacheKey STATIC_SYSTEM_PREFIX chatId
  let cached := getCachedPrompt cache cacheKey now
  let cacheInfo : List (Str × CVal) :=
    [(("cache_hit").data, .b false), (("cache_key").data, .s cacheKey)]
  match cached with
  | some t =>
    if t = [] then
      let prompt := build_optimized_prompt attn mem userInput chatId memories
        workingMemory includeMetaPrompt claudeMd nowStr
      let cache' := storePrompt cache cacheKey prompt ttlSeconds now
      (prompt, dictSet (dictSet cacheInfo ("cache_hit").data (.b false))
         ("source").data (.s ("new_generation").data), cache')
    else
      (t, dictSet (dictSet cacheInfo ("cache_hit").data (.b true))
            ("source").data (.s ("kv_cache").data), cache)
  | none =>
    let prompt := build_optimized_prompt attn mem userInput chatId memories
      workingMemory includeMetaPrompt claudeMd nowStr
    let cache' := storePrompt cache cacheKey prompt ttlSeconds now
    (prompt, dictSet (dictSet cacheInfo ("cache_hit").data (.b false))
       ("source").data (.s ("new_generation").data), cache')

/-! ## Statement-level helpers for the claims -/

/-- The lines of a run of whole entries, numbered from `i`, each
followed by a blank separator line. -/
def ffpEntriesLines (i : Nat) : List FailureRecord → List Str
  | [] => []
  | f :: rest => ffpEntryLines i f ++ [[]] ++ ffpEntriesLines (i + 1) rest

/-- The line list produced by `format_for_prompt` when exactly the
first `k` of the records have been emitted, each as a whole entry
followed by a blank separator line (used to state that only complete
entries ever appear). -/
def ffpLinesUpTo (failures : List FailureRecord) (k : Nat) : List Str :=
  [ffpHeader, []] ++ ffpEntriesLines 1 (failures.take k)

/-- The scoring rule exactly as the claim states it: +100 for a
case-insensitively equal action, else +50 when one action contains the
other as a substring, else +10 per shared word, plus +5 per unit of
`recurrence_count` (a second definition written from the claim's words,
to be compared with `relevanceScore`). -/
def claimScore (currentAction : Str) (f : FailureRecord) : Nat :=
  (if pyLower f.action = pyLower currentAction then 100
   else if containsSub (pyLower currentAction) (pyLower f.action)
        || containsSub (pyLower f.action) (pyLower currentAction) then 50
   else 10 * sharedWordCount (pyLower currentAction) (pyLower f.action))
  + 5 * f.recurrence_count

/-- A failure record with the given action and all other fields
fixed, for the concrete scoring-order scenario of the claim. -/
def plainRec (fid action : Str) : FailureRecord :=
  { failure_id := fid, user_id := ("u").data, action := action,
    error_message := ("e").data, error_type := ("unknown").data, context := [],
    lesson := ("待总结").data, timestamp := [], recurrence_count := 1, resolved := false }

/-- `record_failure` invoked once per element of `calls`
(context, lesson, fresh failure id, timestamp), threading the state. -/
def recordFailureRuns (user action errorMessage : Str) :
    MemState → List (Str × Str × Str × Str) → MemState
  | st, [] => st
  | st, (ctx, lsn, fid, ts) :: rest =>
    recordFailureRuns user action errorMessage
      (record_failure st user action errorMessage ctx lsn fid ts).1 rest

/-- A field value that survives the ledger's store/parse round trip
verbatim: non-empty, single-line, not starting with whitespace, and
not embedding any of the storage labels `_parse_memory_to_record`
greps for. -/
def cleanField (s : Str) : Bool :=
  !s.isEmpty && s.all (fun c => c != '\n')
    && !isPySpace (s.headD 'x')
    && !containsSub ("action:").data s && !containsSub ("error:").data s
    && !containsSub ("type:").data s && !containsSub ("context:").data s
    && !containsSub ("lesson:").data s && !containsSub ("recurrence:").data s

/-- A clean or absent optional argument (`context` / `lesson`). -/
def cleanOpt (s : Str) : Bool := s.isEmpty || cleanField s

/-- The single ledger record that `record_failure` maintains for a
fixed clean signature: after the k-th recording it carries recurrence
count `k` and the latest timestamp, while action, error, context and
lesson stay at their first-recording values. -/
def stableRec (user A E X L fid ts : Str) (k : Nat) : FailureRecord :=
  { failure_id := fid, user_id := user, action := A, error_message := E,
    error_type := detectErrorType E, context := X, lesson := L,
    timestamp := ts, recurrence_count := k, resolved := false }

/-- The metadata dict `record_failure`/`_update_failure` attach to a
stored row. -/
def metaOf (r : FailureRecord) : MemMeta :=
  { failure_id := r.failure_id, error_type := r.error_type, action := r.action,
    recurrence_count := r.recurrence_count, resolved := r.resolved }

/-- The shape of the ledger row holding `r` (content rendered by
`_format_for_storage`, metadata by `metaOf`). -/
def mkEntryOf (r : FailureRecord) (id : Nat) : MemEntry :=
  { id := id, user_id := r.user_id, content := formatForStorage r,
    meta := metaOf r, timestamp := r.timestamp }


/-- The body laid down by `_format_for_storage` once the context field
has been rendered (non-empty and within the 200-character truncation). -/
def storageShape (A E T X L : Str) (k : Nat) : Str :=
  ("失败记录:\naction: ").data ++ A ++ ("\nerror: ").data ++ E ++ ("\ntype: ").data ++ T
    ++ ("\ncontext: ").data ++ X ++ ("\nlesson: ").data ++ L
    ++ ("\nrecurrence: ").data ++ natStr k ++ ("x\n").data

/-- The context value as it first lands in the ledger: `N/A` for an
empty context argument, the context itself otherwise (the 200-character
truncation is the identity on the contexts considered). -/
def storedContext (X : Str) : Str := if X = [] then ("N/A").data else X

/-- The lesson value as it first lands in the ledger (`record_failure`
substitutes a placeholder for an empty lesson argument). -/
def storedLesson (L : Str) : Str := if L = [] then ("待总结").data else L

/-- The timestamp of the last of `calls`, else `ts`. -/
def lastTs (ts : Str) (calls : List (Str × Str × Str × Str)) : Str :=
  calls.foldl (fun _ c => c.2.2.2) ts

/-! ## Lemmas on the string primitives -/

theorem splitFirst_eq_none_iff {pat : Str} (hpat : pat ≠ []) (s : Str) :
    splitFirst pat s = none ↔ ∀ n, ¬ pat <+: s.drop n := by
  induction s with
  | nil =>
    simp only [splitFirst, List.drop_nil, true_iff]
    intro _ h
    exact hpat (List.prefix_nil.mp h)
  | cons c rest ih =>
    rw [splitFirst]
    by_cases h : pat <+: c :: rest
    · simp only [if_pos h, reduceCtorEq, false_iff, not_forall, not_not]
      exact ⟨0, by simpa using h⟩
    · rw [if_neg h]
      constructor
      · intro H n
        have hrest : splitFirst pat rest = none := by
          rcases heq : splitFirst pat rest with _ | p
          · rfl
          · rw [heq] at H; simp at H
        cases n with
        | zero => simpa using h
        | succ n => simpa using (ih.mp hrest) n
      · intro H
        have : splitFirst pat rest = none := ih.mpr (fun n => by simpa using H (n + 1))
        rw [this]; rfl

theorem splitFirst_isSome_of_found {pat : Str} (hpat : pat ≠ []) {s : Str} {n : Nat}
    (h : pat <+: s.drop n) : (splitFirst pat s).isSome := by
  rcases heq : splitFirst pat s with _ | p
  · rw [splitFirst_eq_none_iff hpat] at heq
    exact absurd h (heq n)
  · rfl

theorem drop_append_le {u v : Str} {n : Nat} (h : n ≤ u.length) :
    (u ++ v).drop n = u.drop n ++ v := by
  conv_lhs => rw [← List.take_append_drop n u, List.append_assoc,
    List.drop_left' (by simp [h])]

theorem drop_append_ge {u v : Str} {n : Nat} (h : u.length ≤ n) :
    (u ++ v).drop n = v.drop (n - u.length) := by
  conv_lhs => rw [show n = u.length + (n - u.length) by omega, ← List.drop_drop,
    List.drop_left]

theorem take_append_add (a b : Str) (k : Nat) :
    (a ++ b).take (a.length + k) = a ++ b.take k := by
  induction a with
  | nil => simp
  | cons x a ih =>
    simp only [List.cons_append, List.length_cons]
    rw [show a.length + 1 + k = (a.length + k) + 1 by omega, List.take_succ_cons, ih]

theorem take_append_le (a b : Str) {k : Nat} (h : k ≤ a.length) :
    (a ++ b).take k = a.take k := by
  conv_lhs => rw [← List.take_append_drop k a, List.append_assoc,
    List.take_left' (by simp [h])]

theorem prefix_take_of_le {p l : Str} {k : Nat} (h : p <+: l) (hk : p.length ≤ k) :
    p <+: l.take k := by
  have h1 := List.prefix_iff_eq_take.mp h
  rw [h1, show l.take p.length = (l.take k).take p.length by
    rw [List.take_take, Nat.min_eq_left hk]]
  exact List.take_prefix _ _

theorem splitFirst_append_pat {pat : Str} (hpat : pat ≠ []) (xs ys : Str)
    (H : ∀ n, n < xs.length → ¬ pat <+: (xs ++ (pat ++ ys)).drop n) :
    splitFirst pat (xs ++ (pat ++ ys)) = some (xs, ys) := by
  induction xs with
  | nil =>
    obtain ⟨p, pat', rfl⟩ := List.exists_cons_of_ne_nil hpat
    simp only [List.nil_append, List.cons_append]
    rw [splitFirst, if_pos (by exact List.prefix_append _ _)]
    have hdl := List.drop_left (p :: pat') ys
    simp only [List.cons_append] at hdl
    rw [hdl]
  | cons x xs ih =>
    have h0 : ¬ pat <+: (x :: xs) ++ (pat ++ ys) := by simpa using H 0 (by simp)
    rw [List.cons_append, splitFirst, if_neg (by simpa using h0)]
    rw [ih (fun n hn => by
      have := H (n + 1) (by simp; omega)
      simpa using this)]
    rfl

theorem splitFirst_append_none {pat : Str} (hpat : pat ≠ []) {u v : Str}
    (hu : splitFirst pat u = none) (hv : splitFirst pat v = none)
    (hov : ∀ d, 0 < d → d < pat.length → ¬ pat.take d <:+ u) :
    splitFirst pat (u ++ v) = none := by
  rw [splitFirst_eq_none_iff hpat] at hu hv ⊢
  intro n h
  by_cases hn : u.length ≤ n
  · rw [drop_append_ge hn] at h
    exact hv _ h
  · push_neg at hn
    rw [drop_append_le (Nat.le_of_lt hn)] at h
    by_cases hin : n + pat.length ≤ u.length
    · exact hu n (List.prefix_of_prefix_length_le h (List.prefix_append _ _)
        (by simp; omega))
    · push_neg at hin
      refine hov (u.length - n) (by omega) (by omega) ?_
      have hdl : u.drop n <+: pat :=
        List.prefix_of_prefix_length_le (List.prefix_append _ _) h (by simp; omega)
      have heq : pat.take (u.length - n) = u.drop n := by
        have h1 := List.prefix_iff_eq_take.mp hdl
        rw [h1]; congr 1; simp
      rw [heq]
      exact ⟨u.take n, List.take_append_drop n u⟩

theorem splitFirst_append_none_head {pat : Str} (hpat : pat ≠ []) {u v : Str}
    (hu : splitFirst pat u = none) (hv : splitFirst pat v = none)
    (hb : ∀ c, v.head? = some c → c ∉ pat) :
    splitFirst pat (u ++ v) = none := by
  rw [splitFirst_eq_none_iff hpat] at hu hv ⊢
  intro n h
  by_cases hn : u.length ≤ n
  · rw [drop_append_ge hn] at h
    exact hv _ h
  · push_neg at hn
    rw [drop_append_le (Nat.le_of_lt hn)] at h
    by_cases hin : n + pat.length ≤ u.length
    · exact hu n (List.prefix_of_prefix_length_le h (List.prefix_append _ _)
        (by simp; omega))
    · push_neg at hin
      have hlen : pat.length ≤ (u.drop n ++ v).length := h.length_le
      have hvne : v ≠ [] := by
        intro hveq
        subst hveq
        simp at hlen
        omega
      obtain ⟨c, v', rfl⟩ := List.exists_cons_of_ne_nil hvne
      have hd : u.length - n < pat.length := by omega
      obtain ⟨t, ht⟩ := h
      have h2 := congrArg (List.drop (u.length - n)) ht
      rw [drop_append_le (by omega)] at h2
      have h3 : ((u.drop n) ++ (c :: v')).drop (u.length - n) = c :: v' := by
        rw [drop_append_ge (by simp [List.length_drop])]
        simp [List.length_drop, Nat.sub_self]
      rw [h3] at h2
      have hlen2 : 0 < (pat.drop (u.length - n)).length := by
        rw [List.length_drop]
        omega
      cases hdp : pat.drop (u.length - n) with
      | nil => rw [hdp] at hlen2; simp at hlen2
      | cons p ps =>
        rw [hdp] at h2
        have hdl : p :: (ps ++ t) = c :: v' := by simpa using h2
        have hpc : p = c := ((List.cons.injEq _ _ _ _).mp hdl).1
        have hc : c ∈ pat := by
          rw [← hpc]
          exact List.drop_subset _ _ (by rw [hdp]; exact List.mem_cons_self p ps)
        exact hb c rfl hc

theorem splitFirst_label {pat : Str} (hpat : pat ≠ []) (xs ys : Str)
    (h : splitFirst pat (xs ++ pat.dropLast) = none) :
    splitFirst pat (xs ++ (pat ++ ys)) = some (xs, ys) := by
  apply splitFirst_append_pat hpat
  intro n hn hpre
  rw [splitFirst_eq_none_iff hpat] at h
  apply h n
  have hpatlen : 1 ≤ pat.length := by
    cases pat
    · simp at hpat
    · simp
  rw [drop_append_le (by omega)] at hpre
  rw [drop_append_le (by omega)]
  have htake : (xs.drop n ++ (pat ++ ys)).take ((xs.drop n).length + (pat.length - 1))
      = xs.drop n ++ pat.dropLast := by
    rw [take_append_add]
    congr 1
    rw [take_append_le _ _ (by omega), ← List.dropLast_eq_take]
  rw [← htake]
  exact prefix_take_of_le hpre (by simp; omega)

theorem takeSuffix_shift {pat S chunk : Str} (hnl : '\n' ∉ pat) (hcnl : '\n' ∈ chunk)
    (hd : ∀ d, 0 < d → d < pat.length → ¬ pat.take d <:+ chunk) :
    ∀ d, 0 < d → d < pat.length → ¬ pat.take d <:+ (S ++ chunk) := by
  intro d h1 h2 hsuf
  by_cases hdc : d ≤ chunk.length
  · refine hd d h1 h2 ?_
    exact List.suffix_of_suffix_length_le hsuf (List.suffix_append _ _)
      (by simp; omega)
  · have hcs : chunk <:+ pat.take d :=
      List.suffix_of_suffix_length_le (List.suffix_append _ _) hsuf (by simp; omega)
    exact hnl (List.take_subset d pat (hcs.subset hcnl))

theorem splitFirst_extend {pat S chunk fld : Str} (hpat : pat ≠ [])
    (hS : splitFirst pat S = none) (hchunk : splitFirst pat chunk = none)
    (hfld : splitFirst pat fld = none) (hcnl0 : chunk.head? = some '\n')
    (hnl : '\n' ∉ pat)
    (hd : ∀ d, 0 < d → d < pat.length → ¬ pat.take d <:+ chunk) :
    splitFirst pat ((S ++ chunk) ++ fld) = none := by
  have hcnl : '\n' ∈ chunk := by
    cases chunk with
    | nil => simp at hcnl0
    | cons c cs =>
      simp only [List.head?_cons, Option.some.injEq] at hcnl0
      simp [hcnl0]
  refine splitFirst_append_none hpat ?_ hfld (takeSuffix_shift hnl hcnl hd)
  refine splitFirst_append_none_head hpat hS hchunk ?_
  intro c hc
  rw [hcnl0] at hc
  cases hc
  exact hnl

theorem containsSub_append_self (pat a b : Str) (hpat : pat ≠ []) :
    containsSub pat (a ++ (pat ++ b)) = true := by
  unfold containsSub
  have : pat <+: (a ++ (pat ++ b)).drop a.length := by
    rw [drop_append_ge (Nat.le_refl _)]
    simp only [Nat.sub_self, List.drop_zero]
    exact List.prefix_append pat b
  simpa using splitFirst_isSome_of_found hpat this

theorem containsSub_false_iff (pat s : Str) :
    containsSub pat s = false ↔ splitFirst pat s = none := by
  unfold containsSub
  rcases splitFirst pat s with _ | p <;> simp

/-! ## Claim C3: `format_for_prompt` budget and entry completeness -/

theorem pyJoin_cons₂ (sep x y : Str) (l : List Str) :
    pyJoin sep (x :: y :: l) = x ++ sep ++ pyJoin sep (y :: l) := rfl

theorem pyJoin_append (sep : Str) (xs ys : List Str) (hxs : xs ≠ []) (hys : ys ≠ []) :
    pyJoin sep (xs ++ ys) = pyJoin sep xs ++ sep ++ pyJoin sep ys := by
  induction xs with
  | nil => simp at hxs
  | cons x xs ih =>
    cases xs with
    | nil =>
      cases ys with
      | nil => simp at hys
      | cons y ys => simp [pyJoin_cons₂, pyJoin]
    | cons x2 xs2 =>
      rw [show ((x :: x2 :: xs2) ++ ys) = x :: ((x2 :: xs2) ++ ys) from rfl]
      rw [show ((x2 :: xs2) ++ ys) = x2 :: (xs2 ++ ys) from rfl, pyJoin_cons₂]
      rw [show x2 :: (xs2 ++ ys) = (x2 :: xs2) ++ ys from rfl, ih (by simp)]
      rw [pyJoin_cons₂]
      simp [List.append_assoc]

theorem ffpEntryLines_ne_nil (i : Nat) (f : FailureRecord) : ffpEntryLines i f ≠ [] := by
  unfold ffpEntryLines
  split <;> split <;> simp

theorem nl_data : ("\n").data = ['\n'] := rfl

theorem ffpLoop_spec (maxChars : Nat) (rest : List FailureRecord) :
    ∀ (i curLen : Nat) (lines : List Str), lines ≠ [] →
      (pyJoin ("\n").data lines).length = curLen →
      (pyJoin ("\n").data (ffpLoop maxChars i curLen lines rest)).length
          ≤ max curLen (maxChars + 1)
        ∧ ∃ k, k ≤ rest.length ∧
            ffpLoop maxChars i curLen lines rest
              = lines ++ ffpEntriesLines i (rest.take k) := by
  induction rest with
  | nil =>
    intro i curLen lines hne hlen
    refine ⟨by rw [ffpLoop, hlen]; exact le_max_left _ _, 0, by simp, ?_⟩
    rw [ffpLoop]
    simp [ffpEntriesLines]
  | cons f rest ih =>
    intro i curLen lines hne hlen
    simp only [ffpLoop, nl_data] at *
    split
    next hb =>
      refine ⟨le_trans (le_of_eq (by exact hlen)) (le_max_left _ _), 0, by simp, ?_⟩
      simp [ffpEntriesLines]
    next hb =>
      push_neg at hb
      have hlines' : lines ++ ffpEntryLines i f ++ [[]] ≠ [] := by simp
      have hlen' : (pyJoin ['\n'] (lines ++ ffpEntryLines i f ++ [[]])).length
          = curLen + (pyJoin ['\n'] (ffpEntryLines i f) ++ ['\n']).length + 1 := by
        rw [List.append_assoc, pyJoin_append _ _ _ hne (by simp),
          pyJoin_append _ _ _ (ffpEntryLines_ne_nil i f) (by simp)]
        rw [show pyJoin ['\n'] [([] : Str)] = [] from rfl]
        simp only [List.length_append, List.length_nil, List.length_cons, hlen]
        omega
      obtain ⟨hle, k, hk, heq⟩ := ih (i + 1)
        (curLen + (pyJoin ['\n'] (ffpEntryLines i f) ++ ['\n']).length + 1)
        (lines ++ ffpEntryLines i f ++ [[]]) hlines' hlen'
      refine ⟨?_, k + 1, by simp; omega, ?_⟩
      · refine le_trans (by exact hle) ?_
        have h1 : curLen + (pyJoin ['\n'] (ffpEntryLines i f)
            ++ ['\n']).length + 1 ≤ maxChars + 1 := by omega
        exact max_le (le_trans h1 (le_max_right _ _)) (le_max_right _ _)
      · refine Eq.trans (by exact heq) ?_
        rw [show (f :: rest).take (k + 1) = f :: rest.take k from rfl]
        rw [show ffpEntriesLines i (f :: rest.take k)
              = ffpEntryLines i f ++ [[]] ++ ffpEntriesLines (i + 1) (rest.take k) from rfl]
        simp [List.append_assoc]

/-- Claim C3 (amended): `format_for_prompt(records, max_chars=N)` can
exceed `N` by one character (the accounting of the blank separator
line omits one newline from the guard), and the unconditional header
block is emitted even when it alone exceeds the budget; the output
length is bounded by `max(header-length + 1, N + 1)` instead.  Every
record it includes is still complete: the output consists of the
header block plus some prefix of the records, each rendered whole. -/
theorem c3_format_for_prompt_budget (failures : List FailureRecord) (maxChars : Nat) :
    (format_for_prompt failures maxChars).length
        ≤ max (ffpHeader.length + 1) (maxChars + 1)
      ∧ (failures ≠ [] → ∃ k, k ≤ failures.length ∧
          format_for_prompt failures maxChars
            = pyJoin ("\n").data (ffpLinesUpTo failures k)) := by
  by_cases hf : failures = []
  · subst hf
    constructor
    · simp [format_for_prompt]
    · intro h
      simp at h
  · have hbase : (pyJoin ("\n").data [ffpHeader, []]).length = ffpHeader.length + 1 := by
      simp [pyJoin]
    obtain ⟨hle, k, hk, heq⟩ :=
      ffpLoop_spec maxChars failures 1 (ffpHeader.length + 1) [ffpHeader, []]
        (by simp) hbase
    constructor
    · rw [format_for_prompt, if_neg hf]
      exact hle
    · intro _
      exact ⟨k, hk, by rw [format_for_prompt, if_neg hf, heq]; rfl⟩

/-- Claim C3, counterexample to the claim as stated: with a budget of
39 characters the formatted text for one minimal record is 40
characters long (the guard admits an entry whose blank separator line
pushes the total one character past the budget). -/
theorem c3_budget_counterexample :
    39 < (format_for_prompt [plainRec ("f1").data ("a").data] 39).length := by decide

/-- Witness for C3 on a concrete input. -/
theorem c3_format_for_prompt_budget_witness :
    (format_for_prompt [plainRec ("f1").data ("a").data] 39).length
        ≤ max (ffpHeader.length + 1) (39 + 1)
      ∧ ([plainRec ("f1").data ("a").data] ≠ ([] : List FailureRecord) → ∃ k, k ≤ 1 ∧
          format_for_prompt [plainRec ("f1").data ("a").data] 39
            = pyJoin ("\n").data (ffpLinesUpTo [plainRec ("f1").data ("a").data] k)) := by
  have h := c3_format_for_prompt_budget [plainRec ("f1").data ("a").data] 39
  exact ⟨h.1, fun hne => by simpa using h.2 hne⟩

/-! ## Claim C8: summary generation and its length bound -/

/-- Claim C8 (amended): the summary of a stored record is produced by
`_generate_summary` on the stripped content (first non-empty line;
ellipsis truncation; short first lines extended from the next lines),
but its length is bounded by `max_length + 3` — the `"..."` is
appended after truncating to `max_length`, so a long first line yields
153 characters, not 150. -/
theorem c8_summary_generation :
    (∀ st userId content contentType metaJson refId fileTs createdAt st' ref,
        store_large_content st userId content contentType metaJson refId fileTs createdAt
          = .ok (st', ref) →
        ref.summary = generateSummary (pyStrip content) 150)
    ∧ ∀ (content : Str) (maxLength : Nat),
        (generateSummary content maxLength).length ≤ maxLength + 3 := by
  constructor
  · intro st userId content contentType metaJson refId fileTs createdAt st' ref h
    simp only [store_large_content] at h
    split at h
    · simp at h
    · simp only [Except.ok.injEq, Prod.mk.injEq] at h
      rw [← h.2]
  · intro content maxLength
    have h3 : (("...").data).length = 3 := rfl
    simp only [generateSummary]
    split
    next hc1 =>
      simp only [List.length_append, List.length_take, h3]
      omega
    next hc1 =>
      split
      next hc2 =>
        split
        next hc3 =>
          simp only [List.length_append, List.length_take, h3]
          omega
        next hc3 => omega
      next hc2 => omega

/-- Claim C8, counterexample to the stated 150-character bound: a
151-character single-line content is stored with a 153-character
summary. -/
theorem c8_summary_counterexample :
    150 < (((store_large_content ⟨[], []⟩ ("u").data (List.replicate 151 'a')
        ("general").data (("\x7b\x7d").data) ("r1").data ("t").data
        ("c").data).toOption.map (fun p => p.2.summary)).getD []).length := by decide

/-- Witness for C8 on a concrete input. -/
theorem c8_summary_generation_witness :
    (∃ st' ref, store_large_content ⟨[], []⟩ ("u").data ("hello").data ("general").data
        (("\x7b\x7d").data) ("r1").data ("t").data ("c").data = .ok (st', ref)
      ∧ ref.summary = generateSummary (pyStrip ("hello").data) 150)
    ∧ (generateSummary ("hello").data 150).length ≤ 150 + 3 := by
  constructor
  · have hsome : (store_large_content ⟨[], []⟩ ("u").data ("hello").data ("general").data
        (("\x7b\x7d").data) ("r1").data ("t").data ("c").data).toOption.isSome = true := by
      decide
    rcases heq : store_large_content ⟨[], []⟩ ("u").data ("hello").data ("general").data
        (("\x7b\x7d").data) ("r1").data ("t").data ("c").data with e | p
    · rw [heq] at hsome
      simp [Except.toOption] at hsome
    · have hok : store_large_content ⟨[], []⟩ ("u").data ("hello").data ("general").data
          (("\x7b\x7d").data) ("r1").data ("t").data ("c").data = .ok (p.1, p.2) := by
        rw [heq]
      exact ⟨p.1, p.2, rfl, (c8_summary_generation).1 _ _ _ _ _ _ _ _ p.1 p.2 hok⟩
  · exact (c8_summary_generation).2 ("hello").data 150

/-! ## Claim C1: store/retrieve round trip -/

theorem pyStrip_nl_nl (C : Str) : pyStrip ('\n' :: '\n' :: C) = pyStrip C := by
  unfold pyStrip stripLeft
  rw [List.dropWhile_cons, if_pos (by decide), List.dropWhile_cons, if_pos (by decide)]

theorem splitFirst_self (pat ys : Str) (hpat : pat ≠ []) :
    splitFirst pat (pat ++ ys) = some ([], ys) := by
  have h := splitFirst_append_pat hpat [] ys (by intro n hn; simp at hn)
  simpa using h

/-- Claim C1 (amended): the store writes the *stripped* content, and
retrieval returns exactly that stripped payload with the frontmatter
header removed.  The byte-for-byte round trip therefore holds for
every non-empty content that is already whitespace-trimmed (and whose
header fields do not make `---` occur before the closing delimiter);
content with leading/trailing whitespace comes back stripped, not
byte-for-byte. -/
theorem c1_store_retrieve_roundtrip (st : ExtMemState)
    (userId content contentType metaJson refId fileTs createdAt : Str)
    (hstripped : pyStrip content = content) (hne : content ≠ [])
    (hhdr : splitFirst ("---").data
        (emHeaderBody refId userId contentType createdAt metaJson ++ ("--").data) = none) :
    ∃ st' ref,
      store_large_content st userId content contentType metaJson refId fileTs createdAt
          = .ok (st', ref)
        ∧ retrieve_content st' ref.ref_id = some content := by
  have hpat : ("---").data ≠ ([] : Str) := by decide
  have hcondne : ¬ pyStrip content = [] := by rw [hstripped]; exact hne
  have hfull : emHeader refId userId contentType createdAt metaJson ++ content
      = ("---").data ++ (emHeaderBody refId userId contentType createdAt metaJson
          ++ (("---").data ++ ('\n' :: '\n' :: content))) := by
    rw [emHeader, show ("\n\n").data = ['\n', '\n'] from rfl]
    simp [List.append_assoc]
  have h1 : splitFirst ("---").data
      (emHeader refId userId contentType createdAt metaJson ++ content)
      = some ([], emHeaderBody refId userId contentType createdAt metaJson
          ++ (("---").data ++ ('\n' :: '\n' :: content))) := by
    rw [hfull]
    exact splitFirst_self _ _ hpat
  have h2 : splitFirst ("---").data
      (emHeaderBody refId userId contentType createdAt metaJson
        ++ (("---").data ++ ('\n' :: '\n' :: content)))
      = some (emHeaderBody refId userId contentType createdAt metaJson,
          '\n' :: '\n' :: content) := by
    apply splitFirst_label hpat
    rw [show (("---").data).dropLast = ("--").data from rfl]
    exact hhdr
  have hsf : stripFrontmatter
      (emHeader refId userId contentType createdAt metaJson ++ content) = content := by
    unfold stripFrontmatter
    rw [if_pos (by rw [hfull]; exact List.prefix_append _ _)]
    simp only [pySplit2, h1, h2]
    rw [pyStrip_nl_nl, hstripped]
  simp only [store_large_content, hstripped, if_neg hne]
  refine ⟨_, _, rfl, ?_⟩
  unfold retrieve_content
  simp only [List.lookup, beq_self_eq_true, if_pos]
  exact congrArg some hsf

/-- Claim C1, counterexample to the claim as stated: storing the
non-empty content `" x"` and retrieving it yields `"x"` — the store
strips the payload, so the round trip is not byte-for-byte for
contents with surrounding whitespace. -/
theorem c1_roundtrip_counterexample :
    ((store_large_content ⟨[], []⟩ ("u").data (" x").data ("c").data (("\x7b\x7d").data)
        ("r1").data ("t").data ("ca").data).toOption.bind
      (fun p => retrieve_content p.1 p.2.ref_id)) = some ("x").data
    ∧ ("x").data ≠ (" x").data := by decide

/-- Witness for C1 on a concrete input. -/
theorem c1_store_retrieve_roundtrip_witness :
    ∃ st' ref,
      store_large_content ⟨[], []⟩ ("u1").data ("hello world").data ("code").data
          (("\x7b\x7d").data) ("abcd1234").data ("20240101").data ("2024-01-01").data
          = .ok (st', ref)
        ∧ retrieve_content st' ref.ref_id = some ("hello world").data :=
  c1_store_retrieve_roundtrip ⟨[], []⟩ _ _ _ _ _ _ _ (by decide) (by decide) (by decide)

/-! ## Claim C9: validation error and not-found handling -/

/-- Claim C9: `store_large_content` raises its validation error
exactly when the content is empty after trimming (the check precedes
every write, so nothing is stored), and `retrieve_content` returns
`none` for an unknown reference id or for an index entry whose backing
file is missing/unreadable (I/O failures are modelled as absent
files). -/
theorem c9_validation_and_not_found :
    (∀ st userId content contentType metaJson refId fileTs createdAt,
        (∃ e, store_large_content st userId content contentType metaJson refId fileTs createdAt
            = .error e) ↔ pyStrip content = [])
    ∧ (∀ st refId, List.lookup refId st.indexRefs = none → retrieve_content st refId = none)
    ∧ (∀ st refId entry, List.lookup refId st.indexRefs = some entry →
        List.lookup entry.file_path st.files = none → retrieve_content st refId = none) := by
  refine ⟨?_, ?_, ?_⟩
  · intro st userId content contentType metaJson refId fileTs createdAt
    constructor
    · rintro ⟨e, he⟩
      by_contra hne
      simp only [store_large_content, if_neg hne] at he
      exact Except.noConfusion he
    · intro hempty
      exact ⟨("Content cannot be empty").data, by simp [store_large_content, hempty]⟩
  · intro st refId h
    simp only [retrieve_content, h]
  · intro st refId entry h1 h2
    simp only [retrieve_content, h1, h2]

/-- Witness for C9 on concrete inputs. -/
theorem c9_validation_and_not_found_witness :
    (∃ e, store_large_content ⟨[], []⟩ ("u").data ("  ").data ("c").data (("\x7b\x7d").data)
        ("r").data ("t").data ("ca").data = .error e)
    ∧ retrieve_content ⟨[], []⟩ ("zz").data = none
    ∧ retrieve_content ⟨[], [(("r1").data,
        ⟨("u").data, ("p").data, ("ca").data, ("c").data⟩)]⟩ ("r1").data = none :=
  ⟨(c9_validation_and_not_found.1 _ _ _ _ _ _ _ _).mpr (by decide),
   c9_validation_and_not_found.2.1 _ _ (by decide),
   c9_validation_and_not_found.2.2 _ _ ⟨("u").data, ("p").data, ("ca").data, ("c").data⟩
     (by decide) (by decide)⟩

/-! ## Claim C10: path-based retrieval is unchecked -/

/-- Claim C10: `retrieve_by_path` returns the frontmatter-stripped
content of any path present on the file system — it consults neither
the store's index nor any base-directory containment check — and
`expand_if_reference` therefore resolves a `(see: P)` marker embedded
in arbitrary text to the content of any such file, not only files the
store created (an empty stripped content is falsy in Python and is the
one expansion that is dropped). -/
theorem c10_retrieve_by_path_unchecked :
    (∀ st baseDir path c, List.lookup path st.files = some c →
        retrieve_by_path st baseDir path = some (stripFrontmatter c))
    ∧ (∀ st baseDir content g c, findSeeMarker content = some g →
        List.lookup g st.files = some c → stripFrontmatter c ≠ [] →
        expand_if_reference st baseDir content = stripFrontmatter c) := by
  constructor
  · intro st baseDir path c h
    unfold retrieve_by_path
    rw [h]
  · intro st baseDir content g c h1 h2 h3
    simp only [expand_if_reference, h1, retrieve_by_path, h2]
    simp [h3]

/-- Witness for C10 on a concrete input: a file that the store never
created, outside its base directory, is retrieved and expanded. -/
theorem c10_retrieve_by_path_unchecked_witness :
    retrieve_by_path ⟨[(("/etc/passwd").data, ("root:x").data)], []⟩ ("/base").data
        ("/etc/passwd").data = some (stripFrontmatter ("root:x").data)
    ∧ expand_if_reference ⟨[(("/etc/passwd").data, ("root:x").data)], []⟩ ("/base").data
        ("note (see: /etc/passwd) end").data = stripFrontmatter ("root:x").data :=
  ⟨c10_retrieve_by_path_unchecked.1 _ _ _ _ (by decide),
   c10_retrieve_by_path_unchecked.2 _ _ _ ("/etc/passwd").data ("root:x").data
     (by decide) (by decide) (by decide)⟩

/-! ## Claim C6: relevance scoring and stable descending ranking -/

theorem insertDesc_perm {α : Type} (key : α → Nat) (x : α) (l : List α) :
    (insertDesc key x l).Perm (x :: l) := by
  induction l with
  | nil => exact List.Perm.refl _
  | cons y ys ih =>
    rw [insertDesc]
    split
    · exact (ih.cons y).trans (List.Perm.swap x y ys)
    · exact List.Perm.refl _

theorem sortDesc_perm {α : Type} (key : α → Nat) (l : List α) :
    (sortDesc key l).Perm l := by
  induction l with
  | nil => exact List.Perm.refl _
  | cons x xs ih => exact (insertDesc_perm key x (sortDesc key xs)).trans (ih.cons x)

theorem insertDesc_map {α β : Type} (g : β → α) (kb : β → Nat) (ka : α → Nat)
    (hk : ∀ x, ka (g x) = kb x) (x : β) (l : List β) :
    insertDesc ka (g x) (l.map g) = (insertDesc kb x l).map g := by
  induction l with
  | nil => rfl
  | cons y ys ih =>
    simp only [List.map_cons, insertDesc, hk]
    split
    · simp [ih]
    · simp

theorem sortDesc_map {α β : Type} (g : β → α) (kb : β → Nat) (ka : α → Nat)
    (hk : ∀ x, ka (g x) = kb x) (l : List β) :
    sortDesc ka (l.map g) = (sortDesc kb l).map g := by
  induction l with
  | nil => rfl
  | cons x xs ih => simp only [List.map_cons, sortDesc, ih, insertDesc_map g kb ka hk]

theorem insertDesc_pairwise_lex {α : Type} (k idx : α → Nat) (x : α) (l : List α)
    (hl : l.Pairwise (fun a b => k b < k a ∨ (k a = k b ∧ idx a < idx b)))
    (hx : ∀ y ∈ l, idx x < idx y) :
    (insertDesc k x l).Pairwise
      (fun a b => k b < k a ∨ (k a = k b ∧ idx a < idx b)) := by
  induction l with
  | nil => simp [insertDesc]
  | cons y ys ih =>
    rw [insertDesc]
    split
    next hlt =>
      rw [List.pairwise_cons] at hl ⊢
      refine ⟨?_, ih hl.2 (fun z hz => hx z (List.mem_cons_of_mem y hz))⟩
      intro z hz
      have hz' : z = x ∨ z ∈ ys := by
        have hperm := insertDesc_perm k x ys
        simpa using hperm.mem_iff.mp hz
      rcases hz' with rfl | hz'
      · exact Or.inl hlt
      · exact hl.1 z hz'
    next hge =>
      push_neg at hge
      rw [List.pairwise_cons] at hl
      rw [List.pairwise_cons]
      refine ⟨?_, List.pairwise_cons.mpr ⟨hl.1, hl.2⟩⟩
      intro z hz
      rcases List.mem_cons.mp hz with rfl | hz'
      · rcases Nat.lt_or_ge (k z) (k x) with h2 | h2
        · exact Or.inl h2
        · exact Or.inr ⟨by omega, hx z (by simp)⟩
      · rcases hl.1 z hz' with h | h
        · exact Or.inl (by omega)
        · rcases Nat.lt_or_ge (k z) (k x) with h2 | h2
          · exact Or.inl h2
          · exact Or.inr ⟨by omega, hx z (List.mem_cons_of_mem y hz')⟩

theorem sortDesc_pairwise_lex {α : Type} (k idx : α → Nat) (l : List α)
    (hidx : l.Pairwise (fun a b => idx a < idx b)) :
    (sortDesc k l).Pairwise
      (fun a b => k b < k a ∨ (k a = k b ∧ idx a < idx b)) := by
  induction l with
  | nil => simp [sortDesc]
  | cons x xs ih =>
    rw [sortDesc]
    rw [List.pairwise_cons] at hidx
    refine insertDesc_pairwise_lex k idx x (sortDesc k xs) (ih hidx.2) ?_
    intro y hy
    exact hidx.1 y ((sortDesc_perm k xs).subset hy)

theorem enumFrom_fst_ge {α : Type} :
    ∀ (l : List α) (n : Nat) (p : Nat × α), p ∈ l.enumFrom n → n ≤ p.1 := by
  intro l
  induction l with
  | nil => intro n p h; simp [List.enumFrom] at h
  | cons x xs ih =>
    intro n p h
    rcases List.mem_cons.mp h with rfl | h'
    · exact Nat.le_refl _
    · exact Nat.le_of_lt (Nat.lt_of_lt_of_le (Nat.lt_succ_self n) (ih (n + 1) p h'))

theorem enumFrom_pairwise_fst {α : Type} :
    ∀ (l : List α) (n : Nat), (l.enumFrom n).Pairwise (fun a b => a.1 < b.1) := by
  intro l
  induction l with
  | nil => intro n; simp [List.enumFrom]
  | cons x xs ih =>
    intro n
    rw [List.enumFrom, List.pairwise_cons]
    exact ⟨fun p hp => Nat.lt_of_lt_of_le (Nat.lt_succ_self n) (enumFrom_fst_ge xs (n + 1) p hp),
      ih (n + 1)⟩

theorem enumFrom_map_pair {α β : Type} (f : α → β) :
    ∀ (l : List α) (n : Nat),
      (l.map f).enumFrom n = (l.enumFrom n).map (fun p => (p.1, f p.2)) := by
  intro l
  induction l with
  | nil => intro n; rfl
  | cons x xs ih =>
    intro n
    simp only [List.map_cons, List.enumFrom, ih]

/-- Claim C6: the relevance score of a candidate is exactly the
claim's formula (+100 exact case-insensitive match, else +50
substring containment, else +10 per shared word, plus +5 per
recurrence); the returned list is the top `limit` of a stable
descending sort of the candidates (descending score, ties in original
order — stated as: the result is a take/map of a permutation of the
indexed candidates sorted strictly by (score descending, original
index ascending)); and on the concrete three-record scenario the
exact-match record ranks first. -/
theorem c6_get_relevant_failures_ranking (cs : List FailureRecord) (cur : Str)
    (limit : Nat) :
    (∀ f, relevanceScore (pyLower cur) f = claimScore cur f)
    ∧ (∃ ranked : List (Nat × FailureRecord),
        ranked.Perm cs.enum
        ∧ ranked.Pairwise (fun a b =>
            relevanceScore (pyLower cur) b.2 < relevanceScore (pyLower cur) a.2
            ∨ (relevanceScore (pyLower cur) a.2 = relevanceScore (pyLower cur) b.2
               ∧ a.1 < b.1))
        ∧ rankRelevantFailures cs cur limit = (ranked.take limit).map Prod.snd)
    ∧ (rankRelevantFailures
        [plainRec ("f1").data ("compile C++ code").data,
         plainRec ("f2").data ("implement hashtable").data,
         plainRec ("f3").data ("call external API").data] ("compile C++ code").data 3).head?
      = some (plainRec ("f1").data ("compile C++ code").data) := by
  refine ⟨fun f => rfl, ?_, by decide⟩
  refine ⟨(sortDesc (fun p => p.2.1)
      ((cs.map (fun r => (relevanceScore (pyLower cur) r, r))).enum)).map
        (fun p => (p.1, p.2.2)), ?_, ?_, ?_⟩
  · have h1 : ((sortDesc (fun p => p.2.1)
        ((cs.map (fun r => (relevanceScore (pyLower cur) r, r))).enum)).map
          (fun p => (p.1, p.2.2))).Perm
        (((cs.map (fun r => (relevanceScore (pyLower cur) r, r))).enum).map
          (fun p => (p.1, p.2.2))) := (sortDesc_perm _ _).map _
    refine h1.trans (List.Perm.of_eq ?_)
    rw [List.enum, enumFrom_map_pair, List.map_map]
    rw [show ((fun p => (p.1, p.2.2))
          ∘ fun p : Nat × FailureRecord => (p.1, (relevanceScore (pyLower cur) p.2, p.2)))
        = fun p : Nat × FailureRecord => (p.1, p.2) from rfl]
    simp [List.enum]
  · have htrimem : ∀ p ∈ (cs.map (fun r => (relevanceScore (pyLower cur) r, r))).enum,
        p.2.1 = relevanceScore (pyLower cur) p.2.2 := by
      intro p hp
      rw [List.enum, enumFrom_map_pair] at hp
      obtain ⟨q, _, rfl⟩ := List.mem_map.mp hp
      rfl
    have hsorted := sortDesc_pairwise_lex (fun p => p.2.1) Prod.fst
      ((cs.map (fun r => (relevanceScore (pyLower cur) r, r))).enum)
      (by rw [List.enum]; exact enumFrom_pairwise_fst _ 0)
    rw [List.pairwise_map]
    refine List.Pairwise.imp_of_mem ?_ hsorted
    intro a b ha hb hab
    have ha' := htrimem a ((sortDesc_perm _ _).subset ha)
    have hb' := htrimem b ((sortDesc_perm _ _).subset hb)
    rcases hab with h | h
    · refine Or.inl ?_
      show relevanceScore (pyLower cur) b.2.2 < relevanceScore (pyLower cur) a.2.2
      rw [← ha', ← hb']
      exact h
    · refine Or.inr ⟨?_, h.2⟩
      show relevanceScore (pyLower cur) a.2.2 = relevanceScore (pyLower cur) b.2.2
      rw [← ha', ← hb']
      exact h.1
  · have hms : ((cs.map (fun r => (relevanceScore (pyLower cur) r, r))).enum).map Prod.snd
        = cs.map (fun r => (relevanceScore (pyLower cur) r, r)) := by
      rw [List.enum]
      exact List.enumFrom_map_snd 0 _
    have hcomm := sortDesc_map Prod.snd (fun p : Nat × (Nat × FailureRecord) => p.2.1)
      Prod.fst (fun x => rfl)
      ((cs.map (fun r => (relevanceScore (pyLower cur) r, r))).enum)
    rw [hms] at hcomm
    show ((sortDesc Prod.fst (cs.map (fun r => (relevanceScore (pyLower cur) r, r)))).take
        limit).map Prod.snd = _
    rw [hcomm, ← List.map_take, ← List.map_take, List.map_map, List.map_map]
    rfl

/-- Witness for C6 on a concrete input (the theorem's quantified form
applied to the three-record scenario). -/
theorem c6_get_relevant_failures_ranking_witness :
    (rankRelevantFailures
        [plainRec ("f1").data ("compile C++ code").data,
         plainRec ("f2").data ("implement hashtable").data,
         plainRec ("f3").data ("call external API").data] ("compile C++ code").data 3).head?
      = some (plainRec ("f1").data ("compile C++ code").data) :=
  (c6_get_relevant_failures_ranking [] [] 0).2.2

/-! ## Claim C5: cached prompt building -/

/-- Claim C5 (amended): `build_optimized_prompt_with_cache` keys the
cache on the static system prefix and the chat id only; on a fresh
(unexpired) hit holding NON-EMPTY text it returns the cached text
unchanged — whatever the current user input, memories or working
memory are — with metadata reporting the hit and the cache untouched;
otherwise (no entry, expired entry, or an entry holding the falsy
empty string) it builds the prompt via `build_optimized_prompt`,
stores it under that key with the given TTL, and reports the miss; the
metadata always carries the `cache_hit` flag. -/
theorem c5_build_with_cache (attn : AttnState) (mem : MemState) (cache : KVCacheState)
    (userInput chatId : Str) (memories workingMemory : Option (List Str))
    (includeMetaPrompt : Bool) (claudeMd : Option Str) (nowStr : Str)
    (ttlSeconds now : Nat) :
    (∀ t, getCachedPrompt cache (generateCacheKey STATIC_SYSTEM_PREFIX chatId) now = some t →
      t ≠ [] →
      build_optimized_prompt_with_cache attn mem cache userInput chatId memories
          workingMemory includeMetaPrompt claudeMd nowStr ttlSeconds now
        = (t, dictSet (dictSet
            [(("cache_hit").data, .b false),
             (("cache_key").data, .s (generateCacheKey STATIC_SYSTEM_PREFIX chatId))]
            ("cache_hit").data (.b true)) ("source").data (.s ("kv_cache").data), cache))
    ∧ ((getCachedPrompt cache (generateCacheKey STATIC_SYSTEM_PREFIX chatId) now = none
        ∨ getCachedPrompt cache (generateCacheKey STATIC_SYSTEM_PREFIX chatId) now
            = some []) →
        build_optimized_prompt_with_cache attn mem cache userInput chatId memories
            workingMemory includeMetaPrompt claudeMd nowStr ttlSeconds now
          = (build_optimized_prompt attn mem userInput chatId memories workingMemory
               includeMetaPrompt claudeMd nowStr,
             dictSet (dictSet
               [(("cache_hit").data, .b false),
                (("cache_key").data, .s (generateCacheKey STATIC_SYSTEM_PREFIX chatId))]
               ("cache_hit").data (.b false)) ("source").data (.s ("new_generation").data),
             storePrompt cache (generateCacheKey STATIC_SYSTEM_PREFIX chatId)
               (build_optimized_prompt attn mem userInput chatId memories workingMemory
                 includeMetaPrompt claudeMd nowStr) ttlSeconds now))
    ∧ (List.lookup ("cache_hit").data
        (build_optimized_prompt_with_cache attn mem cache userInput chatId memories
          workingMemory includeMetaPrompt claudeMd nowStr ttlSeconds now).2.1).isSome
        = true := by
  refine ⟨?_, ?_, ?_⟩
  · intro t ht hne
    simp only [build_optimized_prompt_with_cache, ht]
    rw [if_neg hne]
  · intro hm
    rcases hm with hm | hm
    · simp only [build_optimized_prompt_with_cache, hm]
    · simp only [build_optimized_prompt_with_cache, hm]
      rw [if_pos trivial]
  · rcases hc : getCachedPrompt cache (generateCacheKey STATIC_SYSTEM_PREFIX chatId) now
      with _ | t
    · simp only [build_optimized_prompt_with_cache, hc]
      simp [dictSet, List.lookup]
    · simp only [build_optimized_prompt_with_cache, hc]
      by_cases ht0 : t = []
      · rw [if_pos ht0]
        simp [dictSet, List.lookup]
      · rw [if_neg ht0]
        simp [dictSet, List.lookup]

/-- Claim C5, counterexample to the claim as stated: a non-expired
cache entry holding the empty string is a "non-expired entry under the
key", yet the source's `if cached_prompt:` treats the falsy empty text
as a miss - the metadata reports `cache_hit = false` instead of the
claimed hit. -/
theorem c5_truthiness_counterexample :
    getCachedPrompt
        (storePrompt kvEmpty (generateCacheKey STATIC_SYSTEM_PREFIX ("chat1").data)
          [] 10 0)
        (generateCacheKey STATIC_SYSTEM_PREFIX ("chat1").data) 5 = some []
    ∧ List.lookup ("cache_hit").data
        (build_optimized_prompt_with_cache attnEmpty memEmpty
          (storePrompt kvEmpty (generateCacheKey STATIC_SYSTEM_PREFIX ("chat1").data)
            [] 10 0)
          ("input").data ("chat1").data none none true none ("t0").data 60 5).2.1
        = some (.b false) := by
  constructor
  · decide
  · have hc : getCachedPrompt
        (storePrompt kvEmpty (generateCacheKey STATIC_SYSTEM_PREFIX ("chat1").data)
          [] 10 0)
        (generateCacheKey STATIC_SYSTEM_PREFIX ("chat1").data) 5 = some [] := by decide
    simp only [build_optimized_prompt_with_cache, hc]
    rw [if_pos trivial]
    simp [dictSet, List.lookup]

/-- Witness for C5: a concrete fresh hit on non-empty cached text
returns that text with hit metadata and an unchanged cache. -/
theorem c5_build_with_cache_witness :
    build_optimized_prompt_with_cache attnEmpty memEmpty
        (storePrompt kvEmpty (generateCacheKey STATIC_SYSTEM_PREFIX ("chat1").data)
          ("cached").data 10 0)
        ("input").data ("chat1").data none none true none ("t0").data 60 5
      = (("cached").data, dictSet (dictSet
          [(("cache_hit").data, .b false),
           (("cache_key").data, .s (generateCacheKey STATIC_SYSTEM_PREFIX ("chat1").data))]
          ("cache_hit").data (.b true)) ("source").data (.s ("kv_cache").data),
         storePrompt kvEmpty (generateCacheKey STATIC_SYSTEM_PREFIX ("chat1").data)
           ("cached").data 10 0) :=
  (c5_build_with_cache attnEmpty memEmpty _ ("input").data ("chat1").data none none
    true none ("t0").data 60 5).1 ("cached").data (by decide) (by decide)

/-! ## Claim C4: the task goal is recited at the end of the prompt -/

theorem splitChar_no_sep (sep : Char) (a : Str) (h : sep ∉ a) : splitChar sep a = [a] := by
  induction a with
  | nil => rfl
  | cons c cs ih =>
    have h1 : c ≠ sep := fun hc => h (hc ▸ List.mem_cons_self c cs)
    have h2 : sep ∉ cs := fun hc => h (List.mem_cons_of_mem c hc)
    rw [splitChar, if_neg (by simp only [beq_iff_eq]; exact h1), ih h2]

theorem splitChar_append_cons (sep : Char) (a b : Str) (h : sep ∉ a) :
    splitChar sep (a ++ sep :: b) = a :: splitChar sep b := by
  induction a with
  | nil =>
    simp only [List.nil_append]
    rw [splitChar, if_pos (by simp)]
  | cons c cs ih =>
    have h1 : c ≠ sep := fun hc => h (hc ▸ List.mem_cons_self c cs)
    have h2 : sep ∉ cs := fun hc => h (List.mem_cons_of_mem c hc)
    rw [List.cons_append, splitChar, if_neg (by simp only [beq_iff_eq]; exact h1), ih h2]

theorem splitChar_pyJoin (sep : Char) (lines : List Str)
    (h : ∀ l ∈ lines, sep ∉ l) (hne : lines ≠ []) :
    splitChar sep (pyJoin [sep] lines) = lines := by
  induction lines with
  | nil => simp at hne
  | cons x xs ih =>
    cases xs with
    | nil => exact splitChar_no_sep sep x (h x (by simp))
    | cons y ys =>
      rw [pyJoin_cons₂]
      rw [show x ++ [sep] ++ pyJoin [sep] (y :: ys) = x ++ sep :: pyJoin [sep] (y :: ys) by
        simp]
      rw [splitChar_append_cons sep x _ (h x (by simp))]
      rw [ih (fun l hl => h l (List.mem_cons_of_mem x hl)) (by simp)]

theorem stripRight_cons_nonspace (c : Char) (rest : Str) (hc : isPySpace c = false) :
    ∃ t, stripRight (c :: rest) = c :: t := by
  unfold stripRight
  rw [show (c :: rest).reverse = rest.reverse ++ [c] from by simp]
  rw [List.dropWhile_append]
  split
  · rw [List.dropWhile_cons, if_neg (by simp [hc])]
    exact ⟨[], by simp⟩
  · exact ⟨(rest.reverse.dropWhile isPySpace).reverse, by simp⟩

theorem pyStrip_cons_nonspace (c : Char) (rest : Str) (hc : isPySpace c = false) :
    ∃ t, pyStrip (c :: rest) = c :: t := by
  unfold pyStrip stripLeft
  rw [List.dropWhile_cons, if_neg (by simp [hc])]
  exact stripRight_cons_nonspace c rest hc

theorem recitationKeep_false (c : Char) (rest : Str) (hc : isPySpace c = false)
    (h1 : c ≠ '#') (h2 : c ≠ '-') (h3 : c ≠ '⚠') :
    (recitationKeeps.any (fun p => p.isPrefixOf (pyStrip (c :: rest)))) = false := by
  obtain ⟨t, ht⟩ := pyStrip_cons_nonspace c rest hc
  rw [ht]
  have e1 : ('#' == c) = false := beq_eq_false_iff_ne.mpr (Ne.symm h1)
  have e2 : ('-' == c) = false := beq_eq_false_iff_ne.mpr (Ne.symm h2)
  have e3 : ('⚠' == c) = false := beq_eq_false_iff_ne.mpr (Ne.symm h3)
  simp [recitationKeeps, List.isPrefixOf, e1, e2, e3]

/-! ## C4: goal recited in the last prompt section -/

/-- The lines of the todo document written by `create_task` for the goal
"implement login API" (newline-free task id suffix and timestamp). -/
theorem c4_taskTemplate_lines (tsNum nowStr : Str)
    (h1 : '\n' ∉ tsNum) (h2 : '\n' ∉ nowStr) :
    splitChar '\n' (taskTemplate ("implement login API").data (("task_").data ++ tsNum) nowStr)
      = [("# 当前任务").data, [], ("## 主要目标").data, ("implement login API").data, [],
         ("## 已完成").data, ("- [ ]").data, [], ("## 待办事项").data,
         ("- [ ] 分析需求").data, ("- [ ] 设计方案").data, ("- [ ] 实现代码").data,
         ("- [ ] 测试验证").data, [], ("## 关键决策").data, ("[待记录]").data, [],
         ("## 注意事项").data, ("[待记录]").data, [], ("---").data,
         (("任务ID: task_").data ++ tsNum), (("创建时间: ").data ++ nowStr), []] := by
  have htm : taskTemplate ("implement login API").data (("task_").data ++ tsNum) nowStr
      = pyJoin ['\n']
        [("# 当前任务").data, [], ("## 主要目标").data, ("implement login API").data, [],
         ("## 已完成").data, ("- [ ]").data, [], ("## 待办事项").data,
         ("- [ ] 分析需求").data, ("- [ ] 设计方案").data, ("- [ ] 实现代码").data,
         ("- [ ] 测试验证").data, [], ("## 关键决策").data, ("[待记录]").data, [],
         ("## 注意事项").data, ("[待记录]").data, [], ("---").data,
         (("任务ID: task_").data ++ tsNum), (("创建时间: ").data ++ nowStr), []] := by
    simp only [taskTemplate, pyJoin, List.append_assoc]
    rfl
  rw [htm]
  apply splitChar_pyJoin
  · intro l hl
    simp only [List.mem_cons] at hl
    rcases hl with rfl|rfl|rfl|rfl|rfl|rfl|rfl|rfl|rfl|rfl|rfl|rfl|rfl|rfl|rfl|rfl|rfl|rfl|rfl|rfl|rfl|rfl|rfl|(rfl|h0)
    all_goals first
      | decide
      | simp at h0
      | (intro hmem; rcases List.mem_append.mp hmem with hx | hx
         · revert hx; decide
         · exact absurd hx (by assumption))
  · simp

/-- The recitation filter keeps exactly the headline / checkbox lines of
that document. -/
theorem c4_keySections (tsNum nowStr : Str)
    (h1 : '\n' ∉ tsNum) (h2 : '\n' ∉ nowStr) :
    (splitChar '\n' (taskTemplate ("implement login API").data
        (("task_").data ++ tsNum) nowStr)).filter
      (fun l => recitationKeeps.any (fun p => p.isPrefixOf (pyStrip l)))
    = [("# 当前任务").data, ("## 主要目标").data, ("## 已完成").data, ("- [ ]").data,
       ("## 待办事项").data, ("- [ ] 分析需求").data, ("- [ ] 设计方案").data,
       ("- [ ] 实现代码").data, ("- [ ] 测试验证").data, ("## 关键决策").data,
       ("## 注意事项").data] := by
  rw [c4_taskTemplate_lines tsNum nowStr h1 h2]
  have hkid : (fun l => recitationKeeps.any (fun p => p.isPrefixOf (pyStrip l)))
      ((("任务ID: task_").data ++ tsNum)) = false := by
    exact recitationKeep_false '任' (("务ID: task_").data ++ tsNum)
      (by decide) (by decide) (by decide) (by decide)
  have hktime : (fun l => recitationKeeps.any (fun p => p.isPrefixOf (pyStrip l)))
      ((("创建时间: ").data ++ nowStr)) = false := by
    exact recitationKeep_false '创' (("建时间: ").data ++ nowStr)
      (by decide) (by decide) (by decide) (by decide)
  rw [show ([("# 当前任务").data, [], ("## 主要目标").data, ("implement login API").data, [],
         ("## 已完成").data, ("- [ ]").data, [], ("## 待办事项").data,
         ("- [ ] 分析需求").data, ("- [ ] 设计方案").data, ("- [ ] 实现代码").data,
         ("- [ ] 测试验证").data, [], ("## 关键决策").data, ("[待记录]").data, [],
         ("## 注意事项").data, ("[待记录]").data, [], ("---").data,
         (("任务ID: task_").data ++ tsNum), (("创建时间: ").data ++ nowStr), []] : List Str)
      = [("# 当前任务").data, [], ("## 主要目标").data, ("implement login API").data, [],
         ("## 已完成").data, ("- [ ]").data, [], ("## 待办事项").data,
         ("- [ ] 分析需求").data, ("- [ ] 设计方案").data, ("- [ ] 实现代码").data,
         ("- [ ] 测试验证").data, [], ("## 关键决策").data, ("[待记录]").data, [],
         ("## 注意事项").data, ("[待记录]").data, [], ("---").data]
      ++ [(("任务ID: task_").data ++ tsNum), (("创建时间: ").data ++ nowStr), ([] : Str)]
    from rfl]
  rw [List.filter_append]
  rw [show List.filter (fun l => recitationKeeps.any (fun p => p.isPrefixOf (pyStrip l)))
      [(("任务ID: task_").data ++ tsNum), (("创建时间: ").data ++ nowStr), ([] : Str)] =
      List.filter (fun l => recitationKeeps.any (fun p => p.isPrefixOf (pyStrip l))) [([] : Str)]
    from by rw [List.filter_cons, List.filter_cons]; simp only [hkid, hktime]; simp]
  rw [show List.filter (fun l => recitationKeeps.any (fun p => p.isPrefixOf (pyStrip l)))
      [([] : Str)] = [] from by decide]
  rw [show List.filter (fun l => recitationKeeps.any (fun p => p.isPrefixOf (pyStrip l)))
      [("# 当前任务").data, [], ("## 主要目标").data, ("implement login API").data, [],
         ("## 已完成").data, ("- [ ]").data, [], ("## 待办事项").data,
         ("- [ ] 分析需求").data, ("- [ ] 设计方案").data, ("- [ ] 实现代码").data,
         ("- [ ] 测试验证").data, [], ("## 关键决策").data, ("[待记录]").data, [],
         ("## 注意事项").data, ("[待记录]").data, [], ("---").data]
      = [("# 当前任务").data, ("## 主要目标").data, ("## 已完成").data, ("- [ ]").data,
       ("## 待办事项").data, ("- [ ] 分析需求").data, ("- [ ] 设计方案").data,
       ("- [ ] 实现代码").data, ("- [ ] 测试验证").data, ("## 关键决策").data,
       ("## 注意事项").data] from by decide]
  simp

/-- On that document the kept lines join to fewer than 100 characters, so
`_format_task_recitation` takes the 500-character fallback slice. -/
theorem c4_recitation (tsNum nowStr : Str) (h1 : '\n' ∉ tsNum) (h2 : '\n' ∉ nowStr) :
    formatTaskRecitation (taskTemplate ("implement login API").data
        (("task_").data ++ tsNum) nowStr)
      = ("【⚠️ 当前任务目标 - 请始终保持关注】\n").data
        ++ (taskTemplate ("implement login API").data (("task_").data ++ tsNum) nowStr).take 500
        ++ ("\n\n【提醒】完成上述目标后，请更新任务状态。").data := by
  simp only [formatTaskRecitation]
  rw [c4_keySections tsNum nowStr h1 h2]
  rw [if_pos (by decide)]

/-- The goal text lies inside the first 500 characters of the document,
hence inside the recitation. -/
theorem c4_goal_in_recitation (tsNum nowStr : Str)
    (h1 : '\n' ∉ tsNum) (h2 : '\n' ∉ nowStr) :
    containsSub ("implement login API").data
      (formatTaskRecitation (taskTemplate ("implement login API").data
        (("task_").data ++ tsNum) nowStr)) = true := by
  rw [c4_recitation tsNum nowStr h1 h2]
  have hshape : taskTemplate ("implement login API").data (("task_").data ++ tsNum) nowStr
      = ("# 当前任务\n\n## 主要目标\n").data ++ (("implement login API").data
          ++ (("\n\n## 已完成\n- [ ]\n\n## 待办事项\n- [ ] 分析需求\n- [ ] 设计方案\n- [ ] 实现代码\n- [ ] 测试验证\n\n## 关键决策\n[待记录]\n\n## 注意事项\n[待记录]\n\n---\n任务ID: ").data
            ++ (("task_").data ++ (tsNum ++ (("\n创建时间: ").data ++ (nowStr ++ ("\n").data)))))) := by
    simp [taskTemplate, List.append_assoc]
  rw [hshape]
  rw [show (500 : Nat) = (("# 当前任务\n\n## 主要目标\n").data).length + 484 from by decide]
  rw [take_append_add]
  rw [show (484 : Nat) = (("implement login API").data).length + 465 from by decide]
  rw [take_append_add]
  have hfin := containsSub_append_self ("implement login API").data
    (("【⚠️ 当前任务目标 - 请始终保持关注】\n").data ++ ("# 当前任务\n\n## 主要目标\n").data)
    (((("\n\n## 已完成\n- [ ]\n\n## 待办事项\n- [ ] 分析需求\n- [ ] 设计方案\n- [ ] 实现代码\n- [ ] 测试验证\n\n## 关键决策\n[待记录]\n\n## 注意事项\n[待记录]\n\n---\n任务ID: ").data
            ++ (("task_").data ++ (tsNum ++ (("\n创建时间: ").data ++ (nowStr ++ ("\n").data))))).take 465)
      ++ ("\n\n【提醒】完成上述目标后，请更新任务状态。").data) (by decide)
  rw [← hfin]
  simp [List.append_assoc]

/-- C4: after `create_task(chat_id, "implement login API")`,
`build_optimized_prompt(user_input, chat_id)` returns the static prefix,
then the user-input section, then — last, after the user input in
character order — the task recitation, and that recitation contains the
literal goal text. -/
theorem c4_goal_recited_last (chatId userInput tsNum nowStr nowStr2 : Str)
    (h1 : '\n' ∉ tsNum) (h2 : '\n' ∉ nowStr) :
    build_optimized_prompt
        (create_task attnEmpty chatId (("implement login API").data) tsNum nowStr).1
        memEmpty userInput chatId none none true none nowStr2
      = pyStrip STATIC_SYSTEM_PREFIX ++ (SECTION_SEPARATOR
          ++ (((("【用户输入】\n").data ++ userInput)
            ++ (SECTION_SEPARATOR ++ formatTaskRecitation (taskTemplate
                  (("implement login API").data) (("task_").data ++ tsNum) nowStr)))))
      ∧ containsSub (("implement login API").data)
          (formatTaskRecitation (taskTemplate (("implement login API").data)
            (("task_").data ++ tsNum) nowStr)) = true := by
  constructor
  · have hts : getTaskState (create_task attnEmpty chatId
        (("implement login API").data) tsNum nowStr).1 chatId nowStr2
        = taskTemplate (("implement login API").data) (("task_").data ++ tsNum) nowStr := by
      simp [getTaskState, create_task, attnEmpty]
    have htsne : taskTemplate (("implement login API").data)
        (("task_").data ++ tsNum) nowStr ≠ [] := by
      simp [taskTemplate]
    simp only [build_optimized_prompt, hts]
    rw [if_pos htsne]
    have hfl : getFailureLessons memEmpty chatId userInput = [] := by
      simp [getFailureLessons, get_relevant_failures, get_user_failures, memEmpty, memGetByType, rankRelevantFailures, sortDesc]
    simp only [hfl]
    simp [pyJoin, List.append_assoc]
  · exact c4_goal_in_recitation tsNum nowStr h1 h2

theorem c4_goal_recited_last_witness :
    build_optimized_prompt
        (create_task attnEmpty (("chat1").data) (("implement login API").data)
          (("1700000000").data) (("2025-01-01").data)).1
        memEmpty (("hi").data) (("chat1").data) none none true none (("2025-01-02").data)
      = pyStrip STATIC_SYSTEM_PREFIX ++ (SECTION_SEPARATOR
          ++ (((("【用户输入】\n").data ++ ("hi").data)
            ++ (SECTION_SEPARATOR ++ formatTaskRecitation (taskTemplate
                  (("implement login API").data)
                  (("task_").data ++ ("1700000000").data) (("2025-01-01").data))))))
      ∧ containsSub (("implement login API").data)
          (formatTaskRecitation (taskTemplate (("implement login API").data)
            (("task_").data ++ ("1700000000").data) (("2025-01-01").data))) = true :=
  c4_goal_recited_last (("chat1").data) (("hi").data) (("1700000000").data)
    (("2025-01-01").data) (("2025-01-02").data) (by decide) (by decide)

/-! ## Claims C2 and C7: the failure ledger under repeated recordings -/
theorem takeWhile_append_stop {p : Char → Bool} {xs rest : Str} {c : Char}
    (hxs : xs.all p = true) (hrest : rest.head? = some c) (hc : p c = false) :
    (xs ++ rest).takeWhile p = xs := by
  induction xs with
  | nil =>
    cases rest with
    | nil => cases hrest
    | cons r rs =>
      simp only [List.head?_cons, Option.some.injEq] at hrest
      subst hrest
      simp [List.takeWhile_cons, hc]
  | cons x xs ih =>
    simp only [List.all_cons, Bool.and_eq_true] at hxs
    simp [List.takeWhile_cons, hxs.1, ih hxs.2]

theorem getLast?_of_suffix {s u : Str} (h : s <:+ u) (hs : s ≠ []) :
    u.getLast? = s.getLast? := by
  obtain ⟨t, rfl⟩ := h
  exact List.getLast?_append_of_ne_nil t hs

theorem not_takeSuffix_of_last {pat u : Str} {a : Char} (hu : u.getLast? = some a)
    (hp : pat.all (fun c => c != a) = true) :
    ∀ d, 0 < d → d < pat.length → ¬ pat.take d <:+ u := by
  intro d hd hlt hsuf
  have hlen : (pat.take d).length = d := by
    rw [List.length_take]
    omega
  have hne : pat.take d ≠ [] := by
    intro h0
    rw [h0] at hlen
    simp at hlen
    omega
  have hgl : (pat.take d).getLast? = some a := by
    rw [← getLast?_of_suffix hsuf hne, hu]
  obtain ⟨h, heq⟩ := List.mem_getLast?_eq_getLast (Option.mem_def.mpr hgl)
  have hmem : a ∈ pat.take d := heq ▸ List.getLast_mem h
  have := List.all_eq_true.mp hp a (List.take_subset d pat hmem)
  simp at this

theorem splitFirst_append_none_last {pat u v : Str} {a : Char} (hpat : pat ≠ [])
    (hu : splitFirst pat u = none) (hv : splitFirst pat v = none)
    (hlast : u.getLast? = some a) (hp : pat.all (fun c => c != a) = true) :
    splitFirst pat (u ++ v) = none :=
  splitFirst_append_none hpat hu hv (not_takeSuffix_of_last hlast hp)

theorem getLast?_append_right {u C : Str} (hC : C ≠ []) :
    (u ++ C).getLast? = C.getLast? :=
  getLast?_of_suffix (List.suffix_append u C) hC

theorem chain_step {pat u fld C : Str} (hpat : pat ≠ [])
    (hu : splitFirst pat u = none) (hulast : u.getLast? = some ' ')
    (hsp : pat.all (fun c => c != ' ') = true)
    (hfld : splitFirst pat fld = none)
    (hC : splitFirst pat C = none) (hCh : C.head? = some '\n')
    (hnl : '\n' ∉ pat) (hCne : C ≠ []) :
    splitFirst pat (u ++ (fld ++ C)) = none
      ∧ (u ++ (fld ++ C)).getLast? = C.getLast? := by
  have h1 : splitFirst pat (u ++ fld) = none :=
    splitFirst_append_none_last hpat hu hfld hulast hsp
  have h2 : splitFirst pat ((u ++ fld) ++ C) = none := by
    refine splitFirst_append_none_head hpat h1 hC ?_
    intro c hc
    rw [hCh] at hc
    cases hc
    exact hnl
  constructor
  · rw [← List.append_assoc]
    exact h2
  · rw [← List.append_assoc]
    exact getLast?_append_right hCne

theorem strToNat_append_digit (xs : Str) (c : Char) :
    strToNat (xs ++ [c]) = strToNat xs * 10 + (c.toNat - 48) := by
  simp [strToNat, List.foldl_append]

theorem headD_append_left {xs ys : Str} {d : Char} (h : xs ≠ []) :
    (xs ++ ys).headD d = xs.headD d := by
  cases xs with
  | nil => exact absurd rfl h
  | cons a l => rfl

theorem natStrAux_spec : ∀ fuel n, n < fuel →
    natStrAux fuel n ≠ [] ∧ (natStrAux fuel n).all Char.isDigit = true
      ∧ isPySpace ((natStrAux fuel n).headD 'x') = false
      ∧ strToNat (natStrAux fuel n) = n := by
  intro fuel
  induction fuel with
  | zero => intro n h; omega
  | succ fuel ih =>
    intro n h
    by_cases h10 : n < 10
    · rw [natStrAux, if_pos h10]
      refine ⟨by simp, ?_, ?_, ?_⟩
      · interval_cases n <;> decide
      · interval_cases n <;> decide
      · interval_cases n <;> decide
    · rw [natStrAux, if_neg h10]
      have hdiv : n / 10 < fuel := by
        have h1 : n / 10 < n := Nat.div_lt_self (by omega) (by omega)
        omega
      obtain ⟨hne, hdig, hhead, hval⟩ := ih (n / 10) hdiv
      have hm : n % 10 < 10 := Nat.mod_lt _ (by omega)
      refine ⟨by simp, ?_, ?_, ?_⟩
      · rw [List.all_append]
        refine (Bool.and_eq_true _ _).mpr ⟨hdig, ?_⟩
        simp only [List.all_cons, List.all_nil, Bool.and_true]
        interval_cases hI : n % 10 <;> decide
      · rw [headD_append_left hne]
        exact hhead
      · rw [strToNat_append_digit, hval]
        have hc : (Char.ofNat (48 + n % 10)).toNat = 48 + n % 10 := by
          interval_cases hI : n % 10 <;> decide
        rw [hc]
        omega

theorem natStr_spec (n : Nat) :
    natStr n ≠ [] ∧ (natStr n).all Char.isDigit = true
      ∧ isPySpace ((natStr n).headD 'x') = false
      ∧ strToNat (natStr n) = n :=
  natStrAux_spec (n + 1) n (by omega)

theorem cleanField_spec {s : Str} (h : cleanField s = true) :
    s ≠ [] ∧ s.all (fun ch => ch != '\n') = true ∧ isPySpace (s.headD 'x') = false
      ∧ splitFirst ("action:").data s = none ∧ splitFirst ("error:").data s = none
      ∧ splitFirst ("type:").data s = none ∧ splitFirst ("context:").data s = none
      ∧ splitFirst ("lesson:").data s = none ∧ splitFirst ("recurrence:").data s = none := by
  simp only [cleanField, Bool.and_eq_true, Bool.not_eq_true'] at h
  obtain ⟨⟨⟨⟨⟨⟨⟨⟨h1, h2⟩, h3⟩, h4⟩, h5⟩, h6⟩, h7⟩, h8⟩, h9⟩ := h
  refine ⟨?_, h2, h3, (containsSub_false_iff _ _).mp h4, (containsSub_false_iff _ _).mp h5,
    (containsSub_false_iff _ _).mp h6, (containsSub_false_iff _ _).mp h7,
    (containsSub_false_iff _ _).mp h8, (containsSub_false_iff _ _).mp h9⟩
  intro h0
  rw [h0] at h1
  simp at h1

theorem searchAfterLabel_at {label : Str} (P fld rest : Str) (hlabel : label ≠ [])
    (hnone : splitFirst label (P ++ label.dropLast) = none)
    (hfne : fld ≠ []) (hfh : isPySpace (fld.headD 'x') = false)
    (hfnl : fld.all (fun ch => ch != '\n') = true) (hrest : rest.head? = some '\n') :
    searchAfterLabel label (P ++ (label ++ (' ' :: (fld ++ rest)))) = some fld := by
  have hsp := splitFirst_label hlabel P (' ' :: (fld ++ rest)) hnone
  simp only [searchAfterLabel, hsp]
  rw [List.dropWhile_cons_of_pos (by decide)]
  obtain ⟨f, fs, rfl⟩ := List.exists_cons_of_ne_nil hfne
  have hf : isPySpace f = false := hfh
  rw [List.cons_append, List.dropWhile_cons_of_neg (by simp [hf]), ← List.cons_append]
  rw [takeWhile_append_stop hfnl hrest (by decide)]
  rw [if_neg (by simp)]


theorem formatForStorage_eq (r : FailureRecord) (hctx : r.context ≠ [])
    (hlen : r.context.length ≤ 200) :
    formatForStorage r = storageShape r.action r.error_message r.error_type
      r.context r.lesson r.recurrence_count := by
  rw [formatForStorage, storageShape, if_neg hctx, List.take_of_length_le hlen]

theorem detectErrorType_clean (E : Str) :
    cleanField (detectErrorType E) = true
      ∧ (detectErrorType E).all (fun c => c.isAlphanum || c == '_') = true := by
  rcases hf : errorPatterns.find? (fun tp => tp.2.any (fun p => errPatMatches p (pyLower E)))
    with _ | tp
  · simp only [detectErrorType, hf]
    exact ⟨by decide, by decide⟩
  · simp only [detectErrorType, hf]
    have hmem := List.mem_of_find?_eq_some hf
    fin_cases hmem <;> exact ⟨by decide, by decide⟩

theorem dropWhile_eq_self_of_head {p : Char → Bool} {l : Str} (hne : l ≠ [])
    (hh : p (l.headD 'x') = false) : l.dropWhile p = l := by
  cases l with
  | nil => rfl
  | cons a l => exact List.dropWhile_cons_of_neg (by simp [show p a = false from hh])

theorem searchTypeWord_at (P T rest : Str)
    (hnone : splitFirst ("type:").data (P ++ ("type:").data.dropLast) = none)
    (hTne : T ≠ []) (hTw : T.all (fun c => c.isAlphanum || c == '_') = true)
    (hTh : isPySpace (T.headD 'x') = false)
    (hrest : rest.head? = some '\n') :
    searchTypeWord (P ++ (("type:").data ++ (' ' :: (T ++ rest)))) = some T := by
  have hsp := splitFirst_label (by decide) P (' ' :: (T ++ rest)) hnone
  simp only [searchTypeWord, hsp]
  rw [List.dropWhile_cons_of_pos (by decide)]
  rw [dropWhile_eq_self_of_head (by simp [hTne]) (by rw [headD_append_left hTne]; exact hTh)]
  rw [takeWhile_append_stop hTw hrest (by decide)]
  rw [if_neg hTne]

theorem searchRecurrence_at (P : Str) (k : Nat)
    (hnone : splitFirst ("recurrence:").data
      (P ++ ("recurrence:").data.dropLast) = none) :
    searchRecurrence (P ++ (("recurrence:").data
      ++ (' ' :: (natStr k ++ ("x\n").data)))) = some k := by
  obtain ⟨hne, hdig, hhead, hval⟩ := natStr_spec k
  have hsp := splitFirst_label (by decide) P (' ' :: (natStr k ++ ("x\n").data)) hnone
  simp only [searchRecurrence, hsp]
  rw [List.dropWhile_cons_of_pos (by decide)]
  rw [dropWhile_eq_self_of_head (by simp [hne]) (by rw [headD_append_left hne]; exact hhead)]
  rw [takeWhile_append_stop hdig (show (("x\n").data).head? = some 'x' from rfl)
    (by decide)]
  rw [if_neg hne]
  rw [List.drop_left]
  rw [if_pos (by decide)]
  rw [hval]


theorem searchAction_shape (A E T X L : Str) (k : Nat)
    (hA : cleanField A = true) :
    searchAfterLabel ("action:").data (storageShape A E T X L k) = some A := by
  obtain ⟨hAne, hAnl, hAhd, hAn0, hAn1, hAn2, hAn3, hAn4, hAn5⟩ := cleanField_spec hA
  have hnone : splitFirst ("action:").data
      ((("失败记录:\n").data) ++ (("action:").data).dropLast) = none := by decide
  have hsh : storageShape A E T X L k
      = (("失败记录:\n").data) ++ (("action:").data ++ (' ' :: (A ++ (("\nerror: ").data ++ (E ++ (("\ntype: ").data ++ (T ++ (("\ncontext: ").data ++ (X ++ (("\nlesson: ").data ++ (L ++ (("\nrecurrence: ").data ++ (natStr k ++ (("x\n").data)))))))))))))) := by
    simp only [storageShape, List.append_assoc]
    rfl
  rw [hsh]
  exact searchAfterLabel_at _ _ _ (by decide) hnone hAne hAhd hAnl rfl

theorem searchError_shape (A E T X L : Str) (k : Nat)
    (hA : cleanField A = true) (hE : cleanField E = true) :
    searchAfterLabel ("error:").data (storageShape A E T X L k) = some E := by
  obtain ⟨hAne, hAnl, hAhd, hAn0, hAn1, hAn2, hAn3, hAn4, hAn5⟩ := cleanField_spec hA
  obtain ⟨hEne, hEnl, hEhd, hEn0, hEn1, hEn2, hEn3, hEn4, hEn5⟩ := cleanField_spec hE
  have hu0 : splitFirst ("error:").data (("失败记录:\naction: ").data) = none := by decide
  have hg0 : (("失败记录:\naction: ").data).getLast? = some ' ' := rfl
  have hs1 := chain_step (C := ("\nerror").data) (by decide) hu0
    (hg0) (by decide) hAn1 (by decide) rfl (by decide) (by decide)
  have hnone : splitFirst ("error:").data
      ((("失败记录:\naction: ").data ++ (A ++ (("\n").data))) ++ (("error:").data).dropLast) = none := by
    simp only [List.append_assoc] at hs1 ⊢
    exact hs1.1
  have hsh : storageShape A E T X L k
      = (("失败记录:\naction: ").data ++ (A ++ (("\n").data))) ++ (("error:").data ++ (' ' :: (E ++ (("\ntype: ").data ++ (T ++ (("\ncontext: ").data ++ (X ++ (("\nlesson: ").data ++ (L ++ (("\nrecurrence: ").data ++ (natStr k ++ (("x\n").data)))))))))))) := by
    simp only [storageShape, List.append_assoc]
    rfl
  rw [hsh]
  exact searchAfterLabel_at _ _ _ (by decide) hnone hEne hEhd hEnl rfl

theorem searchType_shape (A E T X L : Str) (k : Nat)
    (hA : cleanField A = true) (hE : cleanField E = true) (hT : cleanField T = true)
    (hTw : T.all (fun c => c.isAlphanum || c == '_') = true) :
    searchTypeWord (storageShape A E T X L k) = some T := by
  obtain ⟨hAne, hAnl, hAhd, hAn0, hAn1, hAn2, hAn3, hAn4, hAn5⟩ := cleanField_spec hA
  obtain ⟨hEne, hEnl, hEhd, hEn0, hEn1, hEn2, hEn3, hEn4, hEn5⟩ := cleanField_spec hE
  obtain ⟨hTne, hTnl, hThd, hTn0, hTn1, hTn2, hTn3, hTn4, hTn5⟩ := cleanField_spec hT
  have hu0 : splitFirst ("type:").data (("失败记录:\naction: ").data) = none := by decide
  have hg0 : (("失败记录:\naction: ").data).getLast? = some ' ' := rfl
  have hs1 := chain_step (C := ("\nerror: ").data) (by decide) hu0
    (hg0) (by decide) hAn2 (by decide) rfl (by decide) (by decide)
  have hs2 := chain_step (C := ("\ntype").data) (by decide) hs1.1
    (hs1.2.trans rfl) (by decide) hEn2 (by decide) rfl (by decide) (by decide)
  have hnone : splitFirst ("type:").data
      ((("失败记录:\naction: ").data ++ (A ++ (("\nerror: ").data ++ (E ++ (("\n").data))))) ++ (("type:").data).dropLast) = none := by
    simp only [List.append_assoc] at hs2 ⊢
    exact hs2.1
  have hsh : storageShape A E T X L k
      = (("失败记录:\naction: ").data ++ (A ++ (("\nerror: ").data ++ (E ++ (("\n").data))))) ++ (("type:").data ++ (' ' :: (T ++ (("\ncontext: ").data ++ (X ++ (("\nlesson: ").data ++ (L ++ (("\nrecurrence: ").data ++ (natStr k ++ (("x\n").data)))))))))) := by
    simp only [storageShape, List.append_assoc]
    rfl
  rw [hsh]
  exact searchTypeWord_at _ _ _ hnone hTne hTw hThd rfl

theorem searchContext_shape (A E T X L : Str) (k : Nat)
    (hA : cleanField A = true) (hE : cleanField E = true) (hT : cleanField T = true) (hX : cleanField X = true) :
    searchAfterLabel ("context:").data (storageShape A E T X L k) = some X := by
  obtain ⟨hAne, hAnl, hAhd, hAn0, hAn1, hAn2, hAn3, hAn4, hAn5⟩ := cleanField_spec hA
  obtain ⟨hEne, hEnl, hEhd, hEn0, hEn1, hEn2, hEn3, hEn4, hEn5⟩ := cleanField_spec hE
  obtain ⟨hTne, hTnl, hThd, hTn0, hTn1, hTn2, hTn3, hTn4, hTn5⟩ := cleanField_spec hT
  obtain ⟨hXne, hXnl, hXhd, hXn0, hXn1, hXn2, hXn3, hXn4, hXn5⟩ := cleanField_spec hX
  have hu0 : splitFirst ("context:").data (("失败记录:\naction: ").data) = none := by decide
  have hg0 : (("失败记录:\naction: ").data).getLast? = some ' ' := rfl
  have hs1 := chain_step (C := ("\nerror: ").data) (by decide) hu0
    (hg0) (by decide) hAn3 (by decide) rfl (by decide) (by decide)
  have hs2 := chain_step (C := ("\ntype: ").data) (by decide) hs1.1
    (hs1.2.trans rfl) (by decide) hEn3 (by decide) rfl (by decide) (by decide)
  have hs3 := chain_step (C := ("\ncontext").data) (by decide) hs2.1
    (hs2.2.trans rfl) (by decide) hTn3 (by decide) rfl (by decide) (by decide)
  have hnone : splitFirst ("context:").data
      ((("失败记录:\naction: ").data ++ (A ++ (("\nerror: ").data ++ (E ++ (("\ntype: ").data ++ (T ++ (("\n").data))))))) ++ (("context:").data).dropLast) = none := by
    simp only [List.append_assoc] at hs3 ⊢
    exact hs3.1
  have hsh : storageShape A E T X L k
      = (("失败记录:\naction: ").data ++ (A ++ (("\nerror: ").data ++ (E ++ (("\ntype: ").data ++ (T ++ (("\n").data))))))) ++ (("context:").data ++ (' ' :: (X ++ (("\nlesson: ").data ++ (L ++ (("\nrecurrence: ").data ++ (natStr k ++ (("x\n").data)))))))) := by
    simp only [storageShape, List.append_assoc]
    rfl
  rw [hsh]
  exact searchAfterLabel_at _ _ _ (by decide) hnone hXne hXhd hXnl rfl

theorem searchLesson_shape (A E T X L : Str) (k : Nat)
    (hA : cleanField A = true) (hE : cleanField E = true) (hT : cleanField T = true) (hX : cleanField X = true) (hL : cleanField L = true) :
    searchAfterLabel ("lesson:").data (storageShape A E T X L k) = some L := by
  obtain ⟨hAne, hAnl, hAhd, hAn0, hAn1, hAn2, hAn3, hAn4, hAn5⟩ := cleanField_spec hA
  obtain ⟨hEne, hEnl, hEhd, hEn0, hEn1, hEn2, hEn3, hEn4, hEn5⟩ := cleanField_spec hE
  obtain ⟨hTne, hTnl, hThd, hTn0, hTn1, hTn2, hTn3, hTn4, hTn5⟩ := cleanField_spec hT
  obtain ⟨hXne, hXnl, hXhd, hXn0, hXn1, hXn2, hXn3, hXn4, hXn5⟩ := cleanField_spec hX
  obtain ⟨hLne, hLnl, hLhd, hLn0, hLn1, hLn2, hLn3, hLn4, hLn5⟩ := cleanField_spec hL
  have hu0 : splitFirst ("lesson:").data (("失败记录:\naction: ").data) = none := by decide
  have hg0 : (("失败记录:\naction: ").data).getLast? = some ' ' := rfl
  have hs1 := chain_step (C := ("\nerror: ").data) (by decide) hu0
    (hg0) (by decide) hAn4 (by decide) rfl (by decide) (by decide)
  have hs2 := chain_step (C := ("\ntype: ").data) (by decide) hs1.1
    (hs1.2.trans rfl) (by decide) hEn4 (by decide) rfl (by decide) (by decide)
  have hs3 := chain_step (C := ("\ncontext: ").data) (by decide) hs2.1
    (hs2.2.trans rfl) (by decide) hTn4 (by decide) rfl (by decide) (by decide)
  have hs4 := chain_step (C := ("\nlesson").data) (by decide) hs3.1
    (hs3.2.trans rfl) (by decide) hXn4 (by decide) rfl (by decide) (by decide)
  have hnone : splitFirst ("lesson:").data
      ((("失败记录:\naction: ").data ++ (A ++ (("\nerror: ").data ++ (E ++ (("\ntype: ").data ++ (T ++ (("\ncontext: ").data ++ (X ++ (("\n").data))))))))) ++ (("lesson:").data).dropLast) = none := by
    simp only [List.append_assoc] at hs4 ⊢
    exact hs4.1
  have hsh : storageShape A E T X L k
      = (("失败记录:\naction: ").data ++ (A ++ (("\nerror: ").data ++ (E ++ (("\ntype: ").data ++ (T ++ (("\ncontext: ").data ++ (X ++ (("\n").data))))))))) ++ (("lesson:").data ++ (' ' :: (L ++ (("\nrecurrence: ").data ++ (natStr k ++ (("x\n").data)))))) := by
    simp only [storageShape, List.append_assoc]
    rfl
  rw [hsh]
  exact searchAfterLabel_at _ _ _ (by decide) hnone hLne hLhd hLnl rfl

theorem searchRecurrence_shape (A E T X L : Str) (k : Nat)
    (hA : cleanField A = true) (hE : cleanField E = true) (hT : cleanField T = true) (hX : cleanField X = true) (hL : cleanField L = true) :
    searchRecurrence (storageShape A E T X L k) = some k := by
  obtain ⟨hAne, hAnl, hAhd, hAn0, hAn1, hAn2, hAn3, hAn4, hAn5⟩ := cleanField_spec hA
  obtain ⟨hEne, hEnl, hEhd, hEn0, hEn1, hEn2, hEn3, hEn4, hEn5⟩ := cleanField_spec hE
  obtain ⟨hTne, hTnl, hThd, hTn0, hTn1, hTn2, hTn3, hTn4, hTn5⟩ := cleanField_spec hT
  obtain ⟨hXne, hXnl, hXhd, hXn0, hXn1, hXn2, hXn3, hXn4, hXn5⟩ := cleanField_spec hX
  obtain ⟨hLne, hLnl, hLhd, hLn0, hLn1, hLn2, hLn3, hLn4, hLn5⟩ := cleanField_spec hL
  have hu0 : splitFirst ("recurrence:").data (("失败记录:\naction: ").data) = none := by decide
  have hg0 : (("失败记录:\naction: ").data).getLast? = some ' ' := rfl
  have hs1 := chain_step (C := ("\nerror: ").data) (by decide) hu0
    (hg0) (by decide) hAn5 (by decide) rfl (by decide) (by decide)
  have hs2 := chain_step (C := ("\ntype: ").data) (by decide) hs1.1
    (hs1.2.trans rfl) (by decide) hEn5 (by decide) rfl (by decide) (by decide)
  have hs3 := chain_step (C := ("\ncontext: ").data) (by decide) hs2.1
    (hs2.2.trans rfl) (by decide) hTn5 (by decide) rfl (by decide) (by decide)
  have hs4 := chain_step (C := ("\nlesson: ").data) (by decide) hs3.1
    (hs3.2.trans rfl) (by decide) hXn5 (by decide) rfl (by decide) (by decide)
  have hs5 := chain_step (C := ("\nrecurrence").data) (by decide) hs4.1
    (hs4.2.trans rfl) (by decide) hLn5 (by decide) rfl (by decide) (by decide)
  have hnone : splitFirst ("recurrence:").data
      ((("失败记录:\naction: ").data ++ (A ++ (("\nerror: ").data ++ (E ++ (("\ntype: ").data ++ (T ++ (("\ncontext: ").data ++ (X ++ (("\nlesson: ").data ++ (L ++ (("\n").data))))))))))) ++ (("recurrence:").data).dropLast) = none := by
    simp only [List.append_assoc] at hs5 ⊢
    exact hs5.1
  have hsh : storageShape A E T X L k
      = (("失败记录:\naction: ").data ++ (A ++ (("\nerror: ").data ++ (E ++ (("\ntype: ").data ++ (T ++ (("\ncontext: ").data ++ (X ++ (("\nlesson: ").data ++ (L ++ (("\n").data))))))))))) ++ (("recurrence:").data ++ (' ' :: (natStr k ++ (("x\n").data)))) := by
    simp only [storageShape, List.append_assoc]
    rfl
  rw [hsh]
  exact searchRecurrence_at _ k hnone

theorem parse_roundtrip (r : FailureRecord) (id : Nat)
    (hA : cleanField r.action = true) (hE : cleanField r.error_message = true)
    (hT : cleanField r.error_type = true)
    (hTw : r.error_type.all (fun c => c.isAlphanum || c == '_') = true)
    (hX : cleanField r.context = true) (hXlen : r.context.length ≤ 200)
    (hL : cleanField r.lesson = true) :
    parseMemoryToRecord (mkEntryOf r id) = r := by
  have hctx : r.context ≠ [] := (cleanField_spec hX).1
  have hfmt := formatForStorage_eq r hctx hXlen
  simp only [parseMemoryToRecord, mkEntryOf, metaOf, hfmt,
    searchAction_shape _ _ _ _ _ _ hA,
    searchError_shape _ _ _ _ _ _ hA hE,
    searchType_shape _ _ _ _ _ _ hA hE hT hTw,
    searchContext_shape _ _ _ _ _ _ hA hE hT hX,
    searchLesson_shape _ _ _ _ _ _ hA hE hT hX hL,
    searchRecurrence_shape _ _ _ _ _ _ hA hE hT hX hL,
    Option.getD_some]




theorem storedContext_clean {X : Str} (hX : cleanOpt X = true) :
    cleanField (storedContext X) = true := by
  simp only [cleanOpt, Bool.or_eq_true] at hX
  rcases hX with h | h
  · rw [storedContext, if_pos (List.isEmpty_iff.mp h)]
    decide
  · rw [storedContext, if_neg (cleanField_spec h).1]
    exact h

theorem storedContext_len {X : Str} (hXlen : X.length ≤ 200) :
    (storedContext X).length ≤ 200 := by
  rw [storedContext]
  by_cases h : X = []
  · rw [if_pos h]; decide
  · rw [if_neg h]; exact hXlen

theorem storedLesson_clean {L : Str} (hL : cleanOpt L = true) :
    cleanField (storedLesson L) = true := by
  simp only [cleanOpt, Bool.or_eq_true] at hL
  rcases hL with h | h
  · rw [storedLesson, if_pos (List.isEmpty_iff.mp h)]
    decide
  · rw [storedLesson, if_neg (cleanField_spec h).1]
    exact h

theorem get_user_failures_single (R : FailureRecord) (user : Str) (id n lim : Nat)
    (hu : R.user_id = user) (hlim : lim ≠ 0)
    (hR : parseMemoryToRecord (mkEntryOf R id) = R) :
    get_user_failures { entries := [mkEntryOf R id], nextId := n } user false lim
      = [R] := by
  have hbeq : ((mkEntryOf R id).user_id == user) = true := by
    simp [mkEntryOf, hu]
  simp only [get_user_failures, memGetByType, List.filter_cons, hbeq, if_true,
    List.filter_nil]
  rw [List.take_of_length_le (by simp; omega)]
  simp only [List.filter_cons, Bool.not_false, Bool.true_or, if_true, List.filter_nil,
    List.map_cons, List.map_nil, hR]
  rw [List.take_of_length_le (by simp; omega)]
  simp [hR]

theorem record_failure_first_state (user A E X L fid ts : Str)
    (hXlen : X.length ≤ 200) :
    (record_failure memEmpty user A E X L fid ts).1
      = { entries := [mkEntryOf (stableRec user A E (storedContext X)
            (storedLesson L) fid ts 1) 0], nextId := 1 } := by
  have hsim : findSimilarFailure memEmpty user A E = none := by
    simp [findSimilarFailure, get_user_failures, memGetByType, memEmpty]
  simp only [record_failure, hsim]
  by_cases hX0 : X = []
  · simp [memAdd, memEmpty, mkEntryOf, metaOf, stableRec, storedContext, storedLesson,
      formatForStorage, hX0]
  · simp [memAdd, memEmpty, mkEntryOf, metaOf, stableRec, storedContext, storedLesson,
      formatForStorage, hX0, List.take_of_length_le hXlen]

theorem record_failure_step (user A E X' L' fid ts : Str) (k : Nat) (c l f2 ts' : Str)
    (hA : cleanField A = true) (hE : cleanField E = true)
    (hX : cleanField X' = true) (hXlen : X'.length ≤ 200) (hL : cleanField L' = true) :
    (record_failure { entries := [mkEntryOf (stableRec user A E X' L' fid ts (k+1)) k],
                      nextId := k + 1 } user A E c l f2 ts').1
      = { entries := [mkEntryOf (stableRec user A E X' L' fid ts' (k+2)) (k+1)],
          nextId := k + 2 } := by
  have hrt : parseMemoryToRecord (mkEntryOf (stableRec user A E X' L' fid ts (k+1)) k)
      = stableRec user A E X' L' fid ts (k+1) :=
    parse_roundtrip _ k hA hE (detectErrorType_clean E).1 (detectErrorType_clean E).2
      hX hXlen hL
  have hguf := get_user_failures_single (stableRec user A E X' L' fid ts (k+1))
    user k (k+1) 50 rfl (by omega) hrt
  have hsim : findSimilarFailure { entries := [mkEntryOf
        (stableRec user A E X' L' fid ts (k+1)) k], nextId := k + 1 } user A E
      = some (stableRec user A E X' L' fid ts (k+1)) := by
    simp only [findSimilarFailure, hguf]
    simp [stableRec, List.find?_cons]
  simp only [record_failure, hsim]
  have hfind : (memGetByType { entries := [mkEntryOf
        (stableRec user A E X' L' fid ts (k+1)) k], nextId := k + 1 } user 100).find?
        (fun m => m.meta.failure_id == (stableRec user A E X' L' fid ts (k+1)).failure_id)
      = some (mkEntryOf (stableRec user A E X' L' fid ts (k+1)) k) := by
    simp [memGetByType, mkEntryOf, metaOf, stableRec, List.find?_cons]
  simp only [updateFailure]
  rw [hfind]
  simp [memDelete, memAdd, mkEntryOf, metaOf, stableRec, formatForStorage]

theorem recordFailureRuns_steps (user A E X' L' fid : Str)
    (hA : cleanField A = true) (hE : cleanField E = true)
    (hX : cleanField X' = true) (hXlen : X'.length ≤ 200)
    (hL : cleanField L' = true) :
    ∀ (calls : List (Str × Str × Str × Str)) (k : Nat) (ts : Str),
      recordFailureRuns user A E
        { entries := [mkEntryOf (stableRec user A E X' L' fid ts (k+1)) k],
          nextId := k + 1 } calls
      = { entries := [mkEntryOf (stableRec user A E X' L' fid (lastTs ts calls)
            (k + calls.length + 1)) (k + calls.length)],
          nextId := k + calls.length + 1 } := by
  intro calls
  induction calls with
  | nil =>
    intro k ts
    simp [recordFailureRuns, lastTs]
  | cons hd rest ih =>
    intro k ts
    obtain ⟨ctx, lsn, f2, ts'⟩ := hd
    simp only [recordFailureRuns]
    rw [record_failure_step user A E X' L' fid ts k ctx lsn f2 ts' hA hE hX hXlen hL]
    rw [ih (k+1) ts']
    have h1 : k + 1 + rest.length = k + (rest.length + 1) := by omega
    simp only [lastTs, List.foldl_cons, List.length_cons, h1]

theorem recordFailureRuns_from_empty (user A E X L fid ts : Str)
    (rest : List (Str × Str × Str × Str))
    (hA : cleanField A = true) (hE : cleanField E = true)
    (hX : cleanOpt X = true) (hXlen : X.length ≤ 200) (hL : cleanOpt L = true) :
    recordFailureRuns user A E memEmpty ((X, L, fid, ts) :: rest)
      = { entries := [mkEntryOf (stableRec user A E (storedContext X) (storedLesson L)
            fid (lastTs ts rest) (rest.length + 1)) rest.length],
          nextId := rest.length + 1 } := by
  simp only [recordFailureRuns]
  rw [record_failure_first_state user A E X L fid ts hXlen]
  have hs := recordFailureRuns_steps user A E (storedContext X) (storedLesson L) fid
    hA hE (storedContext_clean hX) (storedContext_len hXlen) (storedLesson_clean hL)
    rest 0 ts
  norm_num at hs
  rw [hs]

/-- Claim C2 (amended): for a fixed signature whose action and error
message are clean single-line label-free strings, recording the failure
N times (N = 1 + |rest|, the first call with clean-or-empty context and
lesson, the later calls arbitrary) leaves exactly one ledger row for
the user, and the single parsed record carries that action and error
with `recurrence_count = N`. -/
theorem c2_dedup_recurrence (user A E X L fid ts : Str)
    (rest : List (Str × Str × Str × Str))
    (hA : cleanField A = true) (hE : cleanField E = true)
    (hX : cleanOpt X = true) (hXlen : X.length ≤ 200) (hL : cleanOpt L = true) :
    (recordFailureRuns user A E memEmpty ((X, L, fid, ts) :: rest)).entries.length = 1
    ∧ ∃ r, get_user_failures (recordFailureRuns user A E memEmpty
          ((X, L, fid, ts) :: rest)) user false 20 = [r]
        ∧ r.action = A ∧ r.error_message = E
        ∧ r.recurrence_count = rest.length + 1 := by
  rw [recordFailureRuns_from_empty user A E X L fid ts rest hA hE hX hXlen hL]
  have hrt := parse_roundtrip (stableRec user A E (storedContext X) (storedLesson L)
      fid (lastTs ts rest) (rest.length + 1)) rest.length hA hE
    (detectErrorType_clean E).1 (detectErrorType_clean E).2
    (storedContext_clean hX) (storedContext_len hXlen) (storedLesson_clean hL)
  exact ⟨rfl, stableRec user A E (storedContext X) (storedLesson L) fid
    (lastTs ts rest) (rest.length + 1),
    get_user_failures_single _ user rest.length (rest.length + 1) 20 rfl (by omega) hrt,
    rfl, rfl, rfl⟩

/-- Claim C7 (corrected): the update path keeps the FIRST recording's
context, not the newest one - recording the same clean signature three
times with contexts c1, c2, c3 leaves one record with
`recurrence_count = 3` whose context is c1 (the timestamp, by
contrast, is refreshed to the latest call's). -/
theorem c7_update_keeps_first_context
    (user A E c1 l1 f1 t1 c2 l2 f2 t2 c3 l3 f3 t3 : Str)
    (hA : cleanField A = true) (hE : cleanField E = true)
    (hc1 : cleanField c1 = true) (hc1len : c1.length ≤ 200) (hl1 : cleanOpt l1 = true) :
    ∃ r, get_user_failures (recordFailureRuns user A E memEmpty
          [(c1, l1, f1, t1), (c2, l2, f2, t2), (c3, l3, f3, t3)]) user false 20 = [r]
      ∧ r.recurrence_count = 3 ∧ r.context = c1 ∧ r.timestamp = t3 := by
  have hX : cleanOpt c1 = true := by simp [cleanOpt, hc1]
  rw [recordFailureRuns_from_empty user A E c1 l1 f1 t1
    [(c2, l2, f2, t2), (c3, l3, f3, t3)] hA hE hX hc1len hl1]
  have hrt := parse_roundtrip (stableRec user A E (storedContext c1) (storedLesson l1)
      f1 (lastTs t1 [(c2, l2, f2, t2), (c3, l3, f3, t3)])
      ([(c2, l2, f2, t2), (c3, l3, f3, t3)].length + 1))
    [(c2, l2, f2, t2), (c3, l3, f3, t3)].length hA hE
    (detectErrorType_clean E).1 (detectErrorType_clean E).2
    (storedContext_clean hX) (storedContext_len hc1len) (storedLesson_clean hl1)
  refine ⟨stableRec user A E (storedContext c1) (storedLesson l1) f1
    (lastTs t1 [(c2, l2, f2, t2), (c3, l3, f3, t3)])
    ([(c2, l2, f2, t2), (c3, l3, f3, t3)].length + 1),
    get_user_failures_single _ user _ _ 20 rfl (by omega) hrt, rfl, ?_, rfl⟩
  rw [show (stableRec user A E (storedContext c1) (storedLesson l1) f1
    (lastTs t1 [(c2, l2, f2, t2), (c3, l3, f3, t3)])
    ([(c2, l2, f2, t2), (c3, l3, f3, t3)].length + 1)).context
      = storedContext c1 from rfl]
  rw [storedContext, if_neg (cleanField_spec hc1).1]

/-- Claim C2, counterexample to the claim as stated (arbitrary fixed
`(action, error_message)` pairs): a multi-line action defeats
`_find_similar_failure` - the stored row's parsed action is only the
first line - so recording the identical pair twice inserts two ledger
rows instead of collapsing them into one. -/
theorem c2_dedup_counterexample :
    List.length (MemState.entries (recordFailureRuns ("u").data ("a\nb").data
      ("e").data memEmpty
      [([], [], ("f1").data, ("t1").data), ([], [], ("f2").data, ("t2").data)]))
      = 2 := by decide

/-- Claim C7, counterexample to the claim as stated: after three
recordings with contexts "c1", "c2", "c3" the stored record's context
is "c1", which differs from the latest call's "c3". -/
theorem c7_context_counterexample :
    ((get_user_failures (recordFailureRuns ("u").data ("act").data ("e").data memEmpty
        [(("c1").data, [], ("f1").data, ("t1").data),
         (("c2").data, [], ("f2").data, ("t2").data),
         (("c3").data, [], ("f3").data, ("t3").data)]) ("u").data false 20).map
      (fun r => r.context) = [("c1").data])
    ∧ ("c1").data ≠ ("c3").data := ⟨by decide, by decide⟩

theorem c2_dedup_recurrence_witness :
    (recordFailureRuns ("u1").data ("compile code").data ("boom").data memEmpty
      ((("ctx").data, [], ("f1").data, ("t1").data)
        :: [([], [], ("f2").data, ("t2").data)])).entries.length = 1
    ∧ ∃ r, get_user_failures (recordFailureRuns ("u1").data ("compile code").data
          ("boom").data memEmpty
          ((("ctx").data, [], ("f1").data, ("t1").data)
            :: [([], [], ("f2").data, ("t2").data)])) ("u1").data false 20 = [r]
        ∧ r.action = ("compile code").data ∧ r.error_message = ("boom").data
        ∧ r.recurrence_count
            = [(([] : Str), ([] : Str), ("f2").data, ("t2").data)].length + 1 :=
  c2_dedup_recurrence ("u1").data ("compile code").data ("boom").data ("ctx").data []
    ("f1").data ("t1").data [([], [], ("f2").data, ("t2").data)]
    (by decide) (by decide) (by decide) (by decide) (by decide)

theorem c7_update_keeps_first_context_witness :
    ∃ r, get_user_failures (recordFailureRuns ("u1").data ("deploy svc").data
          ("denied").data memEmpty
          [(("first").data, [], ("f1").data, ("t1").data),
           (("second").data, [], ("f2").data, ("t2").data),
           (("third").data, [], ("f3").data, ("t3").data)]) ("u1").data false 20 = [r]
      ∧ r.recurrence_count = 3 ∧ r.context = ("first").data
      ∧ r.timestamp = ("t3").data :=
  c7_update_keeps_first_context ("u1").data ("deploy svc").data ("denied").data
    ("first").data [] ("f1").data ("t1").data ("second").data [] ("f2").data ("t2").data
    ("third").data [] ("f3").data ("t3").data
    (by decide) (by decide) (by decide) (by decide) (by decide)

end MateBot
